import Mathlib

/-!
The search-service: indexing and query translation in front of a search engine.

A shallow embedding of the `search` package (`address.go`, `node.go`,
`hardware.go`): the document writers, the bulk writers, the search operations
with their result extraction, the filter builders and the index provisioning.

The search engine is external.  Its index registry (which indices exist, with
which create-body) is modelled concretely; the answers to data requests
(single-document index, bulk, search) are inputs of the model.
-/

namespace SearchService

/-! ## JSON trees -/

/-- JSON values.  `num` is an integer literal, `float` any other number literal
(kept as its source text).  Objects keep their members in order. -/
inductive JSON where
  | null
  | bool (b : Bool)
  | num (n : Int)
  | float (lit : String)
  | str (s : String)
  | arr (xs : List JSON)
  | obj (kvs : List (String × JSON))
  deriving Repr, Inhabited

/-- First member of an object with the given key. -/
def lookup (key : String) : List (String × JSON) → Option JSON
  | [] => none
  | (k, v) :: rest => if k = key then some v else lookup key rest

/-- A Go slice of maps as the JSON encoder writes it: a nil slice (nothing was
ever appended) is written as `null`, any other as an array. -/
def sliceJSON (xs : List JSON) : JSON :=
  match xs with
  | [] => JSON.null
  | _ => JSON.arr xs

/-! ## Go standard library: integers and text -/

/-- Decimal text of an integer, as `fmt.Sprint` and the `%d` verb write it. -/
def Sprint (i : Int) : String := toString i

/-- Value of a decimal digit character. -/
def digitValue (c : Char) : Option Nat :=
  if 48 ≤ c.toNat ∧ c.toNat ≤ 57 then some (c.toNat - 48) else none

/-- Left-to-right accumulation of decimal digits (`n = n*10 + digit`); `none`
on the first character that is not a digit. -/
def parseDigits : List Char → Nat → Option Nat
  | [], n => some n
  | c :: cs, n =>
    match digitValue c with
    | none => none
    | some d => parseDigits cs (n * 10 + d)

/-- The characters after an optional leading sign. -/
def unsigned : List Char → List Char
  | '-' :: cs => cs
  | '+' :: cs => cs
  | cs => cs

/-- The function `strconv.Atoi` on a 64-bit platform: an optional sign followed
by at least one decimal digit, in the range of `int`; `none` stands for a
returned error. -/
def Atoi (s : String) : Option Int :=
  match unsigned s.data with
  | [] => none
  | body =>
    match parseDigits body 0 with
    | none => none
    | some n =>
      let v : Int := if s.data.head? = some '-' then -(n : Int) else (n : Int)
      if -(2 : Int) ^ 63 ≤ v ∧ v < (2 : Int) ^ 63 then some v else none

/-- The Go conversion `int32(x)` of an `int`: reduction modulo 2^32 into
the signed 32-bit range. -/
def toInt32 (x : Int) : Int := (x + 2 ^ 31) % 2 ^ 32 - 2 ^ 31

/-- Membership in the range of `int32`. -/
def IsInt32 (x : Int) : Prop := -(2 : Int) ^ 31 ≤ x ∧ x < (2 : Int) ^ 31

instance (x : Int) : Decidable (IsInt32 x) :=
  inferInstanceAs (Decidable (-(2 : Int) ^ 31 ≤ x ∧ x < (2 : Int) ^ 31))

/-! ## Go standard library: `encoding/json` decoding into the response structs -/

/-- Case folding of one character of an object key, as `encoding/json` folds
keys before comparing them with field names: ASCII letters to upper case, and
the two non-ASCII characters whose simple fold is an ASCII letter (U+017F to
`S`, U+212A to `K`).  No other character folds to an ASCII one. -/
def foldRune (c : Char) : Char :=
  if 97 ≤ c.toNat ∧ c.toNat ≤ 122 then Char.ofNat (c.toNat - 32)
  else if c.toNat = 0x17F then 'S'
  else if c.toNat = 0x212A then 'K'
  else c

/-- Folded form of a key or field name. -/
def foldName (s : String) : List Char := s.data.map foldRune

/-- Whether an object key selects the struct field with JSON name `name`: an
exact match, or else a match of the folded forms. -/
def fieldMatches (name key : String) : Bool :=
  decide (key = name) || decide (foldName key = foldName name)

/-- One element of `r.Hits.Hits`. -/
structure Hit where
  ID : String
  deriving Repr, DecidableEq

/-- The anonymous struct `r` the search operations decode into:
`Total` is `r.Hits.Total.Value`, `Hits` is `r.Hits.Hits`. -/
structure SearchResponse where
  Total : Int
  Hits : List Hit
  deriving Repr, DecidableEq

/-- Decoding a JSON value into an `int32` field.  The flag is true when the
decoder records a type error (the field then keeps its value); `null` leaves
the field alone. -/
def decodeInt32 (old : Int) : JSON → Int × Bool
  | JSON.num n => if -(2 : Int) ^ 31 ≤ n ∧ n < (2 : Int) ^ 31 then (n, false) else (old, true)
  | JSON.null => (old, false)
  | _ => (old, true)

/-- Decoding a JSON value into a `string` field. -/
def decodeString (old : String) : JSON → String × Bool
  | JSON.str s => (s, false)
  | JSON.null => (old, false)
  | _ => (old, true)

/-- Members of a hit object, in order; the member whose key selects `_id` is
decoded into `ID`, every other member is skipped. -/
def decodeHitFields : List (String × JSON) → Hit × Bool → Hit × Bool
  | [], acc => acc
  | (k, v) :: rest, (h, e) =>
    if fieldMatches "_id" k then
      let (s, e1) := decodeString h.ID v
      decodeHitFields rest ({ ID := s }, e || e1)
    else decodeHitFields rest (h, e)

/-- Decoding a JSON value into one hit struct. -/
def decodeHit (old : Hit) : JSON → Hit × Bool
  | JSON.obj kvs => decodeHitFields kvs (old, false)
  | JSON.null => (old, false)
  | _ => (old, true)

/-- Elements of a JSON array appended one by one to the emptied slice. -/
def decodeHitList : List JSON → List Hit × Bool
  | [] => ([], false)
  | x :: xs =>
    let (h, e) := decodeHit { ID := "" } x
    let (hs, es) := decodeHitList xs
    (h :: hs, e || es)

/-- Decoding a JSON value into the slice `Hits`: an array resets the slice and
appends each element, `null` sets the slice to nil. -/
def decodeHitSlice (old : List Hit) : JSON → List Hit × Bool
  | JSON.arr xs => decodeHitList xs
  | JSON.null => ([], false)
  | _ => (old, true)

/-- Members of the `total` object; the member selecting `value` is decoded. -/
def decodeTotalFields : List (String × JSON) → Int × Bool → Int × Bool
  | [], acc => acc
  | (k, v) :: rest, (t, e) =>
    if fieldMatches "value" k then
      let (t1, e1) := decodeInt32 t v
      decodeTotalFields rest (t1, e || e1)
    else decodeTotalFields rest (t, e)

/-- Decoding a JSON value into the struct `Total`. -/
def decodeTotal (old : Int) : JSON → Int × Bool
  | JSON.obj kvs => decodeTotalFields kvs (old, false)
  | JSON.null => (old, false)
  | _ => (old, true)

/-- Members of the inner `hits` object.  `totalName` is the JSON name of the
field `Total`: the tag `total` in `SearchAddresses` and `SearchNodes`, the Go
field name `Total` in `SearchHardware`, which declares no tag for it. -/
def decodeHitsFields (totalName : String) :
    List (String × JSON) → SearchResponse × Bool → SearchResponse × Bool
  | [], acc => acc
  | (k, v) :: rest, (r, e) =>
    if fieldMatches totalName k then
      let (t, e1) := decodeTotal r.Total v
      decodeHitsFields totalName rest ({ r with Total := t }, e || e1)
    else if fieldMatches "hits" k then
      let (hs, e1) := decodeHitSlice r.Hits v
      decodeHitsFields totalName rest ({ r with Hits := hs }, e || e1)
    else decodeHitsFields totalName rest (r, e)

/-- Decoding a JSON value into the struct `Hits`. -/
def decodeHits (totalName : String) (old : SearchResponse) : JSON → SearchResponse × Bool
  | JSON.obj kvs => decodeHitsFields totalName kvs (old, false)
  | JSON.null => (old, false)
  | _ => (old, true)

/-- Members of the top-level object; the member selecting `hits` is decoded. -/
def decodeTopFields (totalName : String) :
    List (String × JSON) → SearchResponse × Bool → SearchResponse × Bool
  | [], acc => acc
  | (k, v) :: rest, (r, e) =>
    if fieldMatches "hits" k then
      let (r1, e1) := decodeHits totalName r v
      decodeTopFields totalName rest (r1, e || e1)
    else decodeTopFields totalName rest (r, e)

/-- The call `json.NewDecoder(res.Body).Decode(&r)` on a zero `r`: `none` is a
returned error (the body is not JSON, or a member has the wrong type). -/
def decodeSearchResponse (totalName : String) : Option JSON → Option SearchResponse
  | none => none
  | some (JSON.obj kvs) =>
    match decodeTopFields totalName kvs ({ Total := 0, Hits := [] }, false) with
    | (r, false) => some r
    | (_, true) => none
  | some JSON.null => some { Total := 0, Hits := [] }
  | some _ => none

/-! ## Messages of `searchpb` -/

/-- Modelled from the spec: the generated message `searchpb.SearchAddress` is
not among the sources; the search operation reads its paging window and the
street and house terms. -/
structure SearchAddress where
  Offset : Int
  Limit : Int
  StreetQuery : String
  HouseQuery : String
  deriving Repr, DecidableEq

/-- Modelled from the spec: the generated message `searchpb.Search` is not
among the sources; the paging window and the free-text term. -/
structure Search where
  Offset : Int
  Limit : Int
  Query : String
  deriving Repr, DecidableEq

/-- Modelled from the spec: the generated message `searchpb.SearchNodeFilter`
is not among the sources; for each flag an opt-in (`use_X`) and the value
tested. -/
structure SearchNodeFilter where
  UseIsDelete : Bool
  IsDelete : Bool
  UseIsPassive : Bool
  IsPassive : Bool
  deriving Repr, DecidableEq

/-- Modelled from the spec: the generated message
`searchpb.SearchHardwareFilter` is not among the sources. -/
structure SearchHardwareFilter where
  UseIsDelete : Bool
  IsDelete : Bool
  deriving Repr, DecidableEq

/-- Modelled from the spec: the generated getter of `use_is_delete`; on an
absent filter (nil pointer) it yields false. -/
def SearchNodeFilter.GetUseIsDelete : Option SearchNodeFilter → Bool
  | none => false
  | some f => f.UseIsDelete

/-- Modelled from the spec: the generated getter of `is_delete`. -/
def SearchNodeFilter.GetIsDelete : Option SearchNodeFilter → Bool
  | none => false
  | some f => f.IsDelete

/-- Modelled from the spec: the generated getter of `use_is_passive`. -/
def SearchNodeFilter.GetUseIsPassive : Option SearchNodeFilter → Bool
  | none => false
  | some f => f.UseIsPassive

/-- Modelled from the spec: the generated getter of `is_passive`. -/
def SearchNodeFilter.GetIsPassive : Option SearchNodeFilter → Bool
  | none => false
  | some f => f.IsPassive

/-- Modelled from the spec: the generated getter of `use_is_delete`. -/
def SearchHardwareFilter.GetUseIsDelete : Option SearchHardwareFilter → Bool
  | none => false
  | some f => f.UseIsDelete

/-- Modelled from the spec: the generated getter of `is_delete`. -/
def SearchHardwareFilter.GetIsDelete : Option SearchHardwareFilter → Bool
  | none => false
  | some f => f.IsDelete

/-! ## The engine client -/

/-- Errors the operations return. -/
inductive Err where
  | transport (msg : String)
  | marshal (msg : String)
  | decode
  | invalidId (id : String)
  | bulkErrors
  deriving Repr, DecidableEq

/-- Requests the client sends.  Bodies of single-document and bulk writes are
the bytes the operation built; query and create bodies are the encoded map. -/
inductive Request where
  | Index (index : String) (documentID : String) (body : String)
  | Bulk (index : String) (body : String)
  | Search (index : String) (body : JSON)
  | IndicesExists (index : String)
  | IndicesCreate (index : String) (body : JSON)
  deriving Repr

/-- A response of the engine: HTTP status and body (`none`: not a JSON value). -/
structure Response where
  StatusCode : Nat
  Body : Option JSON
  deriving Repr

/-- The engine as seen through the client.
* `indices`: the index registry, each index with the body it was created with;
* `sent`: the requests issued so far, oldest first;
* `net`: the transport error of the n-th request, if that request fails in
  transport (it then does not reach the engine);
* `reply`: the engine's answer to the n-th request when it is a data request;
* `accepts`: whether the engine accepts a create body for an index name. -/
structure World where
  indices : List (String × JSON)
  sent : List Request
  net : Nat → Option String
  reply : Nat → Response
  accepts : String → JSON → Bool

/-- Whether an index of that name is registered. -/
def World.hasIndex (w : World) (name : String) : Bool :=
  w.indices.any fun p => decide (p.1 = name)

/-- The engine's handling of a delivered request: the existence check answers
200 or 404; a create registers an absent index whose body the engine accepts
and answers 400 otherwise; data requests are answered by `reply`. -/
def World.handle (w : World) (n : Nat) : Request → Response × World
  | Request.IndicesExists name =>
    ({ StatusCode := if w.hasIndex name then 200 else 404, Body := none }, w)
  | Request.IndicesCreate name body =>
    if w.hasIndex name then ({ StatusCode := 400, Body := none }, w)
    else if w.accepts name body then
      ({ StatusCode := 200, Body := none }, { w with indices := w.indices ++ [(name, body)] })
    else ({ StatusCode := 400, Body := none }, w)
  | _ => (w.reply n, w)

/-- One client call: the request is recorded, then either fails in transport
or is handled by the engine.  Only a transport failure is a Go error; an HTTP
error status is an ordinary response. -/
def World.perform (w : World) (r : Request) : Except Err Response × World :=
  let n := w.sent.length
  let w1 := { w with sent := w.sent ++ [r] }
  match w.net n with
  | some msg => (Except.error (Err.transport msg), w1)
  | none =>
    let (res, w2) := w1.handle n r
    (Except.ok res, w2)

/-! ## Filter builders (`node.go`, `hardware.go`) -/

/-- The clause `term: field = true`. -/
def termTrue (field : String) : JSON :=
  JSON.obj [("term", JSON.obj [(field, JSON.bool true)])]

/-- The clause `bool: must_not: exists: field`. -/
def mustNotExists (field : String) : JSON :=
  JSON.obj [("bool", JSON.obj [("must_not",
    JSON.obj [("exists", JSON.obj [("field", JSON.str field)])])])]

/-- The function `buildNodeFilter`. -/
def buildNodeFilter (filter : Option SearchNodeFilter) : List JSON :=
  let filters : List JSON := []
  let filters :=
    if SearchNodeFilter.GetUseIsDelete filter then
      if SearchNodeFilter.GetIsDelete filter then filters ++ [termTrue "is_delete"]
      else filters ++ [mustNotExists "is_delete"]
    else filters
  let filters :=
    if SearchNodeFilter.GetUseIsPassive filter then
      if SearchNodeFilter.GetIsPassive filter then filters ++ [termTrue "is_passive"]
      else filters ++ [mustNotExists "is_passive"]
    else filters
  filters

/-- The function `buildHardwareFilter`. -/
def buildHardwareFilter (filter : Option SearchHardwareFilter) : List JSON :=
  let filters : List JSON := []
  let filters :=
    if SearchHardwareFilter.GetUseIsDelete filter then
      if SearchHardwareFilter.GetIsDelete filter then filters ++ [termTrue "is_delete"]
      else filters ++ [mustNotExists "is_delete"]
    else filters
  filters

/-! ## Query bodies -/

/-- The sort specification both address query modes carry. -/
def addressSort : JSON :=
  JSON.arr [
    JSON.obj [("_score", JSON.obj [("order", JSON.str "desc")])],
    JSON.obj [("house_name.keyword", JSON.obj [("order", JSON.str "asc")])]]

/-- The match on the edge-tokenised street field, boost 3. -/
def streetMatch (search : SearchAddress) : JSON :=
  JSON.obj [("match", JSON.obj [("street_name.edge",
    JSON.obj [("query", JSON.str search.StreetQuery), ("boost", JSON.num 3)])])]

/-- The three boost functions of the function-score query. -/
def addressFunctions (search : SearchAddress) : JSON :=
  JSON.arr [
    JSON.obj [
      ("filter", JSON.obj [("term",
        JSON.obj [("house_name.keyword", JSON.str search.HouseQuery)])]),
      ("weight", JSON.num 100)],
    JSON.obj [
      ("filter", JSON.obj [("bool", JSON.obj [("must", JSON.arr [
        JSON.obj [("prefix",
          JSON.obj [("house_name.keyword", JSON.str search.HouseQuery)])],
        JSON.obj [("regexp",
          JSON.obj [("house_name.keyword", JSON.str (search.HouseQuery ++ "[^0-9].*"))])]])])]),
      ("weight", JSON.num 50)],
    JSON.obj [
      ("filter", JSON.obj [("match",
        JSON.obj [("house_name.edge", JSON.str search.HouseQuery)])]),
      ("weight", JSON.num 25)]]

/-- The map `searchQuery` of `SearchAddresses`, in its two modes. -/
def addressSearchQuery (search : SearchAddress) : JSON :=
  if search.HouseQuery = "" then
    JSON.obj [
      ("from", JSON.num search.Offset),
      ("size", JSON.num search.Limit),
      ("query", streetMatch search),
      ("_source", JSON.arr [JSON.str "street_name", JSON.str "street_type_short_name"]),
      ("sort", addressSort)]
  else
    JSON.obj [
      ("from", JSON.num search.Offset),
      ("size", JSON.num search.Limit),
      ("query", JSON.obj [("function_score", JSON.obj [
        ("query", JSON.obj [("bool", JSON.obj [
          ("must", JSON.arr [streetMatch search]),
          ("should", JSON.arr [
            JSON.obj [("match", JSON.obj [("house_name.edge",
              JSON.obj [("query", JSON.str search.HouseQuery)])])]]),
          ("minimum_should_match", JSON.num 1)])]),
        ("functions", addressFunctions search),
        ("score_mode", JSON.str "sum")])]),
      ("sort", addressSort),
      ("track_total_hits", JSON.bool true)]

/-- The field list of the node `multi_match`. -/
def nodeSearchFields : List String :=
  ["name.edge", "zone.edge", "owner.edge", "address.street_name.edge",
   "address.street_type.edge", "address.house_name.edge", "address.house_type.edge",
   "type.edge"]

/-- The field list of the hardware `multi_match`. -/
def hardwareSearchFields : List String :=
  ["type.edge", "node_name.edge", "model_name.edge", "ip_address.edge",
   "address.street_name.edge", "address.street_type.edge", "address.house_name.edge",
   "address.house_type.edge"]

/-- The map `searchQuery` shared in shape by `SearchNodes` and `SearchHardware`:
a boolean query of one `multi_match` and the filter clauses. -/
def multiMatchQuery (search : Search) (fields : List String) (filters : List JSON) : JSON :=
  JSON.obj [
    ("from", JSON.num search.Offset),
    ("size", JSON.num search.Limit),
    ("query", JSON.obj [("bool", JSON.obj [
      ("must", JSON.arr [JSON.obj [("multi_match", JSON.obj [
        ("query", JSON.str search.Query),
        ("fields", JSON.arr (fields.map JSON.str))])]]),
      ("filter", sliceJSON filters)])])]

/-! ## Search operations and result extraction -/

/-- What a search operation returns: identifiers, total, error. -/
structure SearchResult where
  ids : List Int
  total : Int
  err : Option Err
  deriving Repr, DecidableEq

/-- The loop over `r.Hits.Hits`: each identifier is parsed and appended as an
`int32`; the first identifier that does not parse ends the loop with it. -/
def collectIds : List Hit → List Int → Except String (List Int)
  | [], ids => Except.ok ids
  | hit :: rest, ids =>
    match Atoi hit.ID with
    | none => Except.error hit.ID
    | some id => collectIds rest (ids ++ [toInt32 id])

/-- The part of the three search operations after the request: decode the
body, extract identifiers and total. -/
def extractResult (totalName : String) (res : Response) : SearchResult :=
  match decodeSearchResponse totalName res.Body with
  | none => { ids := [], total := 0, err := some Err.decode }
  | some r =>
    match collectIds r.Hits [] with
    | Except.error bad => { ids := [], total := 0, err := some (Err.invalidId bad) }
    | Except.ok ids => { ids := ids, total := r.Total, err := none }

/-- The method `DefaultAddressSearch.SearchAddresses`.  Encoding the query map
cannot fail (it holds strings, integers and booleans only), so the first
error return is never taken. -/
def SearchAddresses (search : SearchAddress) (w : World) : SearchResult × World :=
  match w.perform (Request.Search "addresses" (addressSearchQuery search)) with
  | (Except.error e, w1) => ({ ids := [], total := 0, err := some e }, w1)
  | (Except.ok res, w1) => (extractResult "total" res, w1)

/-- The method `DefaultNodeSearch.SearchNodes`. -/
def SearchNodes (search : Search) (filter : Option SearchNodeFilter) (w : World) :
    SearchResult × World :=
  match w.perform (Request.Search "nodes"
      (multiMatchQuery search nodeSearchFields (buildNodeFilter filter))) with
  | (Except.error e, w1) => ({ ids := [], total := 0, err := some e }, w1)
  | (Except.ok res, w1) => (extractResult "total" res, w1)

/-- The method `DefaultHardwareSearch.SearchHardware`; its struct declares
`Total` without a tag, so the field's JSON name is `Total`. -/
def SearchHardware (search : Search) (filter : Option SearchHardwareFilter) (w : World) :
    SearchResult × World :=
  match w.perform (Request.Search "hardware"
      (multiMatchQuery search hardwareSearchFields (buildHardwareFilter filter))) with
  | (Except.error e, w1) => ({ ids := [], total := 0, err := some e }, w1)
  | (Except.ok res, w1) => (extractResult "Total" res, w1)

/-! ## Entities of `searchpb` and their documents -/

/-- Modelled from the spec: the generated message `searchpb.Address` is not
among the sources; identity `house_id` and the four attributes of the data
model. -/
structure Address where
  HouseId : Int
  StreetName : String
  StreetType : String
  HouseName : String
  HouseType : String
  deriving Repr, DecidableEq

/-- Modelled from the spec: the generated message `searchpb.Hardware` is not
among the sources; `is_delete` is the tri-state optional flag of the data
model (`none`: unset). -/
structure Hardware where
  Id : Int
  Type_ : String
  NodeName : String
  ModelName : String
  IpAddress : String
  Address : Address
  IsDelete : Option Bool
  deriving Repr, DecidableEq

/-- Modelled from the spec: the generated message `searchpb.Node` is not among
the sources; `is_delete` and `is_passive` are the tri-state optional flags of
the data model (`none`: unset). -/
structure Node where
  Id : Int
  Name : String
  Zone : String
  Owner : String
  Address : Address
  Type_ : String
  IsDelete : Option Bool
  IsPassive : Option Bool
  deriving Repr, DecidableEq

/-- Modelled from the spec: the generated getter `GetIsDelete`, which is not
among the sources.  The writers assign its result to the field `IsDelete`,
which Go accepts only for a result of the field's type: it returns the value
of the flag. -/
def Node.GetIsDelete (n : Node) : Option Bool := n.IsDelete

/-- Modelled from the spec: the generated getter `GetIsPassive`, which is not
among the sources; it returns the value of the flag, of the field's type. -/
def Node.GetIsPassive (n : Node) : Option Bool := n.IsPassive

/-- Modelled from the spec: the generated getter `GetIsDelete`, which is not
among the sources; it returns the value of the flag, of the field's type. -/
def Hardware.GetIsDelete (h : Hardware) : Option Bool := h.IsDelete

/-- The two assignments `node.IsDelete = node.GetIsDelete()` and
`node.IsPassive = node.GetIsPassive()` that precede serialisation: each stores
into the field the value the getter read from it. -/
def normalizeNode (node : Node) : Node :=
  let node := { node with IsDelete := node.GetIsDelete }
  { node with IsPassive := node.GetIsPassive }

/-- The assignment `hardware.IsDelete = hardware.GetIsDelete()` that precedes
serialisation. -/
def normalizeHardware (hardware : Hardware) : Hardware :=
  { hardware with IsDelete := hardware.GetIsDelete }

/-- A tri-state flag as a document member: present with its value when set,
absent when unset. -/
def flagMember (name : String) : Option Bool → List (String × JSON)
  | none => []
  | some b => [(name, JSON.bool b)]

/-- Modelled from the spec: the document of an address (the JSON field names of
`searchpb.Address` are not among the sources); all fields are copied. -/
def addressDocument (a : Address) : JSON :=
  JSON.obj [
    ("house_id", JSON.num a.HouseId),
    ("street_name", JSON.str a.StreetName),
    ("street_type", JSON.str a.StreetType),
    ("house_name", JSON.str a.HouseName),
    ("house_type", JSON.str a.HouseType)]

/-- Modelled from the spec: the document of a node (the JSON field names of
`searchpb.Node` are not among the sources); all fields are copied, the
embedded address verbatim, a set flag as a boolean member. -/
def nodeDocument (n : Node) : JSON :=
  JSON.obj ([
    ("id", JSON.num n.Id),
    ("name", JSON.str n.Name),
    ("zone", JSON.str n.Zone),
    ("owner", JSON.str n.Owner),
    ("address", addressDocument n.Address),
    ("type", JSON.str n.Type_)]
    ++ flagMember "is_delete" n.IsDelete ++ flagMember "is_passive" n.IsPassive)

/-- Modelled from the spec: the document of a hardware unit (the JSON field
names of `searchpb.Hardware` are not among the sources). -/
def hardwareDocument (h : Hardware) : JSON :=
  JSON.obj ([
    ("id", JSON.num h.Id),
    ("type", JSON.str h.Type_),
    ("node_name", JSON.str h.NodeName),
    ("model_name", JSON.str h.ModelName),
    ("ip_address", JSON.str h.IpAddress),
    ("address", addressDocument h.Address)]
    ++ flagMember "is_delete" h.IsDelete)

/-- Escaping of one character inside a JSON string. -/
def escapeChar (c : Char) : List Char :=
  if c = '"' then ['\\', '"']
  else if c = '\\' then ['\\', '\\']
  else if c = '\n' then ['\\', 'n']
  else if c = '\r' then ['\\', 'r']
  else if c = '\t' then ['\\', 't']
  else [c]

/-- A quoted JSON string. -/
def quote (s : String) : String :=
  "\"" ++ String.mk (s.data.flatMap escapeChar) ++ "\""

mutual
/-- Compact JSON text of a tree. -/
def render : JSON → String
  | JSON.null => "null"
  | JSON.bool b => if b then "true" else "false"
  | JSON.num n => Sprint n
  | JSON.float lit => lit
  | JSON.str s => quote s
  | JSON.arr xs => "[" ++ renderList xs ++ "]"
  | JSON.obj kvs => "\x7b" ++ renderMembers kvs ++ "\x7d"
/-- Comma-separated elements. -/
def renderList : List JSON → String
  | [] => ""
  | [x] => render x
  | x :: xs => render x ++ "," ++ renderList xs
/-- Comma-separated members. -/
def renderMembers : List (String × JSON) → String
  | [] => ""
  | [(k, v)] => quote k ++ ":" ++ render v
  | (k, v) :: kvs => quote k ++ ":" ++ render v ++ "," ++ renderMembers kvs
end

/-- Modelled from the spec: `json.Marshal` on a node, whose struct tags are
not among the sources: the text of the node's document; it does not fail. -/
def marshalNode (n : Node) : Except Err String := Except.ok (render (nodeDocument n))

/-- Modelled from the spec: `json.Marshal` on a hardware unit. -/
def marshalHardware (h : Hardware) : Except Err String :=
  Except.ok (render (hardwareDocument h))

/-- Modelled from the spec: `json.Marshal` on an address. -/
def marshalAddress (a : Address) : Except Err String :=
  Except.ok (render (addressDocument a))

/-! ## Document writers -/

/-- The action text of one entity of a bulk payload: an index action carrying
the decimal identifier. -/
def actionText (id : Int) : String :=
  "\x7b \"index\" : \x7b \"_id\" : \"" ++ Sprint id ++ "\" \x7d \x7d"

/-- The action line `fmt.Sprintf` builds for one entity: the action text
followed by the newline passed as the second argument. -/
def actionLine (id : Int) : String := actionText id ++ "\n"

/-- The loop of the bulk writers over the entities.  `prepare` stands for the
assignments made to the entity before it is serialised, `marshal` for
`json.Marshal` on the entity type; the first entity that fails to serialise
ends the operation with that error. -/
def bulkBuffer {α : Type} (prepare : α → α) (idOf : α → Int)
    (marshal : α → Except Err String) : List α → String → Except Err String
  | [], buf => Except.ok buf
  | x :: rest, buf =>
    let metaLine := actionLine (idOf x)
    match marshal (prepare x) with
    | Except.error e => Except.error e
    | Except.ok data =>
      let data := data ++ "\n"
      bulkBuffer prepare idOf marshal rest (buf ++ metaLine ++ data)

/-- Decoding a JSON value into a `bool` field. -/
def decodeBool (old : Bool) : JSON → Bool × Bool
  | JSON.bool b => (b, false)
  | JSON.null => (old, false)
  | _ => (old, true)

/-- Members of the bulk response; the member selecting `errors` is decoded. -/
def decodeBulkFields : List (String × JSON) → Bool × Bool → Bool × Bool
  | [], acc => acc
  | (k, v) :: rest, (b, e) =>
    if fieldMatches "errors" k then
      let (b1, e1) := decodeBool b v
      decodeBulkFields rest (b1, e || e1)
    else decodeBulkFields rest (b, e)

/-- The call `json.NewDecoder(res.Body).Decode(&bulkResp)` on a zero
`bulkResp`: the decoded `Errors`, or `none` for a returned error. -/
def decodeBulkResponse : Option JSON → Option Bool
  | none => none
  | some (JSON.obj kvs) =>
    match decodeBulkFields kvs (false, false) with
    | (b, false) => some b
    | (_, true) => none
  | some JSON.null => some false
  | some _ => none

/-- The body shared by `IndexAddresses`, `IndexNodes` and `IndexHardware`:
build the buffer, submit it as one bulk request, decode the response and
inspect its `errors` flag. -/
def bulkWrite {α : Type} (index : String) (prepare : α → α) (idOf : α → Int)
    (marshal : α → Except Err String) (items : List α) (w : World) : Option Err × World :=
  match bulkBuffer prepare idOf marshal items "" with
  | Except.error e => (some e, w)
  | Except.ok buf =>
    match w.perform (Request.Bulk index buf) with
    | (Except.error e, w1) => (some e, w1)
    | (Except.ok res, w1) =>
      match decodeBulkResponse res.Body with
      | none => (some Err.decode, w1)
      | some errors => if errors then (some Err.bulkErrors, w1) else (none, w1)

/-- The body shared by `IndexAddress`, `IndexNode` and `IndexHardwareSingle`:
serialise, then one index request with the document identifier. -/
def indexOne {α : Type} (index : String) (prepare : α → α) (idOf : α → Int)
    (marshal : α → Except Err String) (item : α) (w : World) : Option Err × World :=
  match marshal (prepare item) with
  | Except.error e => (some e, w)
  | Except.ok data =>
    match w.perform (Request.Index index (Sprint (idOf item)) data) with
    | (Except.error e, w1) => (some e, w1)
    | (Except.ok _, w1) => (none, w1)

/-- The method `DefaultAddressSearch.IndexAddress`. -/
def IndexAddress (marshal : Address → Except Err String) (address : Address) (w : World) :
    Option Err × World :=
  indexOne "addresses" id (fun a => a.HouseId) marshal address w

/-- The method `DefaultAddressSearch.IndexAddresses`. -/
def IndexAddresses (marshal : Address → Except Err String) (addresses : List Address)
    (w : World) : Option Err × World :=
  bulkWrite "addresses" id (fun a => a.HouseId) marshal addresses w

/-- The method `DefaultNodeSearch.IndexNode`. -/
def IndexNode (marshal : Node → Except Err String) (node : Node) (w : World) :
    Option Err × World :=
  indexOne "nodes" normalizeNode (fun n => n.Id) marshal node w

/-- The method `DefaultNodeSearch.IndexNodes`. -/
def IndexNodes (marshal : Node → Except Err String) (nodes : List Node) (w : World) :
    Option Err × World :=
  bulkWrite "nodes" normalizeNode (fun n => n.Id) marshal nodes w

/-- The method `DefaultHardwareSearch.IndexHardwareSingle`. -/
def IndexHardwareSingle (marshal : Hardware → Except Err String) (hardware : Hardware)
    (w : World) : Option Err × World :=
  indexOne "hardware" normalizeHardware (fun h => h.Id) marshal hardware w

/-- The method `DefaultHardwareSearch.IndexHardware`. -/
def IndexHardware (marshal : Hardware → Except Err String) (hardware : List Hardware)
    (w : World) : Option Err × World :=
  bulkWrite "hardware" normalizeHardware (fun h => h.Id) marshal hardware w

/-- The lines the loop of the bulk writers lays down: for each entity the
action text, then the document. -/
def bulkLines : List Int → List String → List String
  | id :: ids, doc :: docs => actionText id :: doc :: bulkLines ids docs
  | _, _ => []

/-- Newline-terminated lines laid end to end. -/
def joinLines : List String → String
  | [] => ""
  | l :: ls => l ++ "\n" ++ joinLines ls

/-! ## Index provisioning -/

/-- The `settings` member shared in shape by the three create bodies; the
kinds differ in `min_gram`. -/
def analysisSettings (minGram : Int) : JSON :=
  JSON.obj [("analysis", JSON.obj [
    ("filter", JSON.obj [("edge_ngram_filter", JSON.obj [
      ("type", JSON.str "edge_ngram"),
      ("min_gram", JSON.num minGram),
      ("max_gram", JSON.num 20)])]),
    ("analyzer", JSON.obj [("edge_ngram_analyzer", JSON.obj [
      ("type", JSON.str "custom"),
      ("tokenizer", JSON.str "standard"),
      ("filter", JSON.arr [JSON.str "lowercase", JSON.str "edge_ngram_filter"])])])])]

/-- The sub-field `edge`. -/
def edgeField : JSON :=
  JSON.obj [
    ("type", JSON.str "text"),
    ("analyzer", JSON.str "edge_ngram_analyzer"),
    ("search_analyzer", JSON.str "standard")]

/-- The map `fieldParams` of `EnsureIndexNode` and `EnsureIndexHardware`. -/
def fieldParams : JSON :=
  JSON.obj [
    ("type", JSON.str "text"),
    ("fields", JSON.obj [("edge", edgeField)])]

/-- The mapping the address index gives `street_name` and `house_name`. -/
def addressTextField : JSON :=
  JSON.obj [
    ("type", JSON.str "text"),
    ("fields", JSON.obj [
      ("edge", edgeField),
      ("keyword", JSON.obj [("type", JSON.str "keyword")])])]

/-- The mapping of a flag field. -/
def flagField : JSON :=
  JSON.obj [("type", JSON.str "boolean"), ("null_value", JSON.bool false)]

/-- The map `settings` of `EnsureIndexAddress`. -/
def addressSettings : JSON :=
  JSON.obj [
    ("settings", analysisSettings 1),
    ("mappings", JSON.obj [("properties", JSON.obj [
      ("street_name", addressTextField),
      ("street_type_short_name", JSON.obj [("type", JSON.str "keyword")]),
      ("house_name", addressTextField),
      ("house_type_short_name", JSON.obj [("type", JSON.str "keyword")])])])]

/-- The map `settings` of `EnsureIndexNode`. -/
def nodeSettings : JSON :=
  JSON.obj [
    ("settings", analysisSettings 2),
    ("mappings", JSON.obj [("properties", JSON.obj [
      ("name", fieldParams),
      ("zone", fieldParams),
      ("owner", fieldParams),
      ("address.street_name", fieldParams),
      ("address.street_type", fieldParams),
      ("address.house_name", fieldParams),
      ("address.house_type", fieldParams),
      ("type", fieldParams),
      ("is_delete", flagField),
      ("is_passive", flagField)])])]

/-- The map `settings` of `EnsureIndexHardware`. -/
def hardwareSettings : JSON :=
  JSON.obj [
    ("settings", analysisSettings 2),
    ("mappings", JSON.obj [("properties", JSON.obj [
      ("type", fieldParams),
      ("node_name", fieldParams),
      ("model_name", fieldParams),
      ("ip_address", fieldParams),
      ("address.street_name", fieldParams),
      ("address.street_type", fieldParams),
      ("address.house_name", fieldParams),
      ("address.house_type", fieldParams),
      ("is_delete", flagField)])])]

/-- The body shared by the three provisioning methods: check existence; on
status 200 return; otherwise send the create request and return nil unless
the transport fails (the status of the create response is not inspected;
encoding the settings map cannot fail). -/
def ensureIndex (index : String) (settings : JSON) (w : World) : Option Err × World :=
  match w.perform (Request.IndicesExists index) with
  | (Except.error e, w1) => (some e, w1)
  | (Except.ok res, w1) =>
    if res.StatusCode = 200 then (none, w1)
    else
      match w1.perform (Request.IndicesCreate index settings) with
      | (Except.error e, w2) => (some e, w2)
      | (Except.ok _, w2) => (none, w2)

/-- The method `DefaultAddressSearch.EnsureIndexAddress`. -/
def EnsureIndexAddress (w : World) : Option Err × World :=
  ensureIndex "addresses" addressSettings w

/-- The method `DefaultNodeSearch.EnsureIndexNode`. -/
def EnsureIndexNode (w : World) : Option Err × World :=
  ensureIndex "nodes" nodeSettings w

/-- The method `DefaultHardwareSearch.EnsureIndexHardware`. -/
def EnsureIndexHardware (w : World) : Option Err × World :=
  ensureIndex "hardware" hardwareSettings w

/-- The create body registered for an index name, if any. -/
def World.mappingOf (w : World) (name : String) : Option JSON :=
  lookup name w.indices

/-- How many registered indices carry the name. -/
def World.indexCount (w : World) (name : String) : Nat :=
  (w.indices.filter fun p => decide (p.1 = name)).length

/-! ## Filter evaluation in the engine -/

/-- The value the engine indexes for a field of a stored document: none for
an absent member, for an empty array, and for `null` unless the field's
mapping sets `null_value`, which then stands in for it. -/
def indexedValue (nullValue : Option Bool) (doc : List (String × JSON)) (field : String) :
    Option JSON :=
  match lookup field doc with
  | none => none
  | some JSON.null => nullValue.map JSON.bool
  | some (JSON.arr []) => none
  | some v => some v

/-- Whether a leaf clause matches a document: `term` on a boolean compares the
indexed value, `exists` tests that there is one.  `none`: a clause the filter
builders do not produce. -/
def leafMatches (nullValue : Option Bool) (doc : List (String × JSON)) : JSON → Option Bool
  | JSON.obj [("term", JSON.obj [(field, JSON.bool b)])] =>
    match indexedValue nullValue doc field with
    | some (JSON.bool c) => some (b == c)
    | _ => some false
  | JSON.obj [("exists", JSON.obj [("field", JSON.str field)])] =>
    some (indexedValue nullValue doc field).isSome
  | _ => none

/-- Whether a filter clause matches a document: a leaf, or the negation
`bool: must_not: leaf`. -/
def clauseMatches (nullValue : Option Bool) (doc : List (String × JSON)) : JSON → Option Bool
  | JSON.obj [("bool", JSON.obj [("must_not", c)])] =>
    (leafMatches nullValue doc c).map not
  | c => leafMatches nullValue doc c

/-- A document passes a filter when every clause matches it. -/
def passesFilter (nullValue : Option Bool) (doc : List (String × JSON)) (clauses : List JSON) :
    Bool :=
  clauses.all fun c => clauseMatches nullValue doc c == some true

/-- The members of an object (none for any other value). -/
def members : JSON → List (String × JSON)
  | JSON.obj kvs => kvs
  | _ => []


/-- The three entity kinds. -/
inductive Kind where
  | address
  | node
  | hardware
  deriving Repr, DecidableEq

/-- The index of a kind. -/
def Kind.index : Kind → String
  | Kind.address => "addresses"
  | Kind.node => "nodes"
  | Kind.hardware => "hardware"

/-- The create body of a kind. -/
def Kind.settings : Kind → JSON
  | Kind.address => addressSettings
  | Kind.node => nodeSettings
  | Kind.hardware => hardwareSettings

/-- The provisioning method of a kind. -/
def EnsureIndex : Kind → World → Option Err × World
  | Kind.address => EnsureIndexAddress
  | Kind.node => EnsureIndexNode
  | Kind.hardware => EnsureIndexHardware

/-! ## Concrete inputs -/

/-- An engine with no index, a reliable transport, accepting every create
body, answering every data request with an empty object. -/
def emptyWorld : World :=
  { indices := [], sent := [], net := fun _ => none,
    reply := fun _ => { StatusCode := 200, Body := some (JSON.obj []) },
    accepts := fun _ _ => true }

/-- The empty engine behind a transport that fails every request. -/
def downWorld : World :=
  { emptyWorld with net := fun _ => some "connection refused" }

/-- An engine whose `nodes` index already exists with an empty create body,
as after a first document was written before any provisioning. -/
def staleWorld : World :=
  { emptyWorld with indices := [("nodes", JSON.obj [])] }

/-- An engine answering a search with two hits, identifiers `12` and `-7`. -/
def twoHitsWorld : World :=
  { emptyWorld with
    reply := fun _ =>
      { StatusCode := 200,
        Body := some (JSON.obj [
          ("took", JSON.num 3),
          ("hits", JSON.obj [
            ("total", JSON.obj [("value", JSON.num 2), ("relation", JSON.str "eq")]),
            ("hits", JSON.arr [
              JSON.obj [("_index", JSON.str "nodes"), ("_id", JSON.str "12")],
              JSON.obj [("_index", JSON.str "nodes"), ("_id", JSON.str "-7")]])])]) } }

/-- An engine answering a search with a valid identifier followed by one that
is not an integer. -/
def badHitWorld : World :=
  { emptyWorld with
    reply := fun _ =>
      { StatusCode := 200,
        Body := some (JSON.obj [
          ("hits", JSON.obj [
            ("total", JSON.obj [("value", JSON.num 2)]),
            ("hits", JSON.arr [
              JSON.obj [("_id", JSON.str "12")],
              JSON.obj [("_id", JSON.str "12a")]])])]) } }

/-- An engine answering a bulk request with the `errors` flag set. -/
def bulkErrorsWorld : World :=
  { emptyWorld with
    reply := fun _ =>
      { StatusCode := 200,
        Body := some (JSON.obj [("took", JSON.num 5), ("errors", JSON.bool true)]) } }

/-- An address with the given key. -/
def sampleAddress (id : Int) : Address :=
  { HouseId := id, StreetName := "Baker", StreetType := "st", HouseName := "221B",
    HouseType := "h" }

/-- A node with both flags unset. -/
def sampleNode : Node :=
  { Id := 5, Name := "n5", Zone := "z", Owner := "o", Address := sampleAddress 7,
    Type_ := "switch", IsDelete := none, IsPassive := none }

/-- A hardware unit with its flag unset. -/
def sampleHardware : Hardware :=
  { Id := 9, Type_ := "router", NodeName := "n5", ModelName := "m", IpAddress := "10.0.0.1",
    Address := sampleAddress 7, IsDelete := none }

/-- A member list is unambiguous for a field when at most one member selects
the field (no duplicate and no case-variant keys). -/
def Unambiguous (name : String) (kvs : List (String × JSON)) : Prop :=
  (kvs.filter fun p => fieldMatches name p.1).length ≤ 1

instance (name : String) (kvs : List (String × JSON)) : Decidable (Unambiguous name kvs) :=
  inferInstanceAs (Decidable ((kvs.filter fun p => fieldMatches name p.1).length ≤ 1))


/-! ## Reading a create body -/

/-- The member of an object value under a key. -/
def field (key : String) (j : JSON) : Option JSON := lookup key (members j)

/-- The string under a key of an object value. -/
def stringField (key : String) (j : JSON) : Option String :=
  match field key j with
  | some (JSON.str s) => some s
  | _ => none

/-- The strings of a list of JSON strings (none when another value occurs). -/
def stringsOf : List JSON → Option (List String)
  | [] => some []
  | JSON.str s :: rest => (stringsOf rest).map fun ss => s :: ss
  | _ :: _ => none

/-- The strings under a key holding an array of strings. -/
def stringsField (key : String) (j : JSON) : List String :=
  match field key j with
  | some (JSON.arr xs) => (stringsOf xs).getD []
  | _ => []

/-- The members of `mappings.properties` of a create body. -/
def properties (settings : JSON) : List (String × JSON) :=
  match field "mappings" settings with
  | none => []
  | some m =>
    match field "properties" m with
    | none => []
    | some p => members p

/-- Whether a property is mapped with type `text` (a free-text field). -/
def isTextField (mapping : JSON) : Bool :=
  stringField "type" mapping == some "text"

/-- The free-text fields of a create body. -/
def textFields (settings : JSON) : List (String × JSON) :=
  (properties settings).filter fun p => isTextField p.2

/-- The sub-field of a property under `fields`. -/
def subField (name : String) (mapping : JSON) : Option JSON :=
  match field "fields" mapping with
  | none => none
  | some fs => field name fs

/-- The filter chain of the analyzer of that name in `settings.analysis`. -/
def analyzerFilters (settings : JSON) (analyzer : String) : List String :=
  match field "settings" settings with
  | none => []
  | some s =>
    match field "analysis" s with
    | none => []
    | some a =>
      match field "analyzer" a with
      | none => []
      | some as =>
        match field analyzer as with
        | none => []
        | some d => stringsField "filter" d

/-- The type of the token filter of that name in `settings.analysis`. -/
def tokenFilterType (settings : JSON) (name : String) : Option String :=
  match field "settings" settings with
  | none => none
  | some s =>
    match field "analysis" s with
    | none => none
    | some a =>
      match field "filter" a with
      | none => none
      | some fs =>
        match field name fs with
        | none => none
        | some d => stringField "type" d

/-- Whether a sub-field is analysed with the edge-n-gram analyzer: it names an
analyzer whose filter chain is the lower-case filter followed by a token
filter of type `edge_ngram`. -/
def isEdgeNgram (settings : JSON) (sub : JSON) : Bool :=
  match stringField "analyzer" sub with
  | none => false
  | some a =>
    match analyzerFilters settings a with
    | [lower, f] => lower == "lowercase" && tokenFilterType settings f == some "edge_ngram"
    | _ => false

/-- Whether a property has the sub-field `edge`, analysed with the edge-n-gram
analyzer. -/
def hasEdgeSubField (settings : JSON) (mapping : JSON) : Bool :=
  match subField "edge" mapping with
  | none => false
  | some sub => isEdgeNgram settings sub

/-- Whether a property has the sub-field `keyword` of type `keyword`. -/
def hasKeywordSubField (mapping : JSON) : Bool :=
  match subField "keyword" mapping with
  | none => false
  | some sub => stringField "type" sub == some "keyword"

/-- A path split at its last dot: the property and the sub-field name. -/
def splitLastDot (path : List Char) : Option (List Char × List Char) :=
  match path.reverse.span fun c => c != '.' with
  | (suffix, '.' :: property) => some (property.reverse, suffix.reverse)
  | _ => none

/-- Whether the create body defines a field path a query refers to: the path
is a property, or it is a sub-field of a property; a sub-field named `edge`
must be analysed with the edge-n-gram analyzer. -/
def pathDefined (settings : JSON) (path : String) : Bool :=
  match lookup path (properties settings) with
  | some _ => true
  | none =>
    match splitLastDot path.data with
    | none => false
    | some (property, sub) =>
      match lookup (String.mk property) (properties settings) with
      | none => false
      | some mapping =>
        match subField (String.mk sub) mapping with
        | none => false
        | some s => if String.mk sub = "edge" then isEdgeNgram settings s else true

/-- Whether a path names a sub-field of a property of the create body (the
path is not itself a property). -/
def isSubFieldPath (settings : JSON) (path : String) : Bool :=
  match lookup path (properties settings) with
  | some _ => false
  | none =>
    match splitLastDot path.data with
    | none => false
    | some (property, sub) =>
      match lookup (String.mk property) (properties settings) with
      | none => false
      | some mapping => (subField (String.mk sub) mapping).isSome

/-- The keys of the sort entries of a search body, `_score` left out. -/
def sortFields : List JSON → List String
  | [] => []
  | x :: xs => ((members x).map Prod.fst).filter (fun k => k != "_score") ++ sortFields xs

mutual
/-- The field paths a query body refers to: the fields of `match`, `term`,
`prefix` and `regexp` clauses, of `exists`, of `multi_match`, of `_source`
and of `sort`. -/
def referencedFields : JSON → List String
  | JSON.obj kvs => referencedMembers kvs
  | JSON.arr xs => referencedElements xs
  | _ => []
/-- The field paths the elements of an array refer to. -/
def referencedElements : List JSON → List String
  | [] => []
  | x :: xs => referencedFields x ++ referencedElements xs
/-- The field paths the members of an object refer to. -/
def referencedMembers : List (String × JSON) → List String
  | [] => []
  | (k, v) :: rest =>
    (if k = "match" ∨ k = "term" ∨ k = "prefix" ∨ k = "regexp" then (members v).map Prod.fst
     else if k = "exists" then (stringField "field" v).toList
     else if k = "multi_match" then stringsField "fields" v
     else if k = "_source" then
       match v with
       | JSON.arr xs => (stringsOf xs).getD []
       | _ => []
     else if k = "sort" then
       match v with
       | JSON.arr xs => sortFields xs
       | _ => []
     else referencedFields v) ++ referencedMembers rest
end

/-! ## Filter rule and ordering as the spec words them -/

/-- The clauses of one flag as the spec words the rule: nothing unless the
caller opted into the flag; an exact match on the stored `true` for
`X = true`; "the field does not exist" for `X = false`. -/
def flagClauses (field : String) (use value : Bool) : List JSON :=
  if use then
    [if value then JSON.obj [("term", JSON.obj [(field, JSON.bool true)])]
     else JSON.obj [("bool", JSON.obj [("must_not",
       JSON.obj [("exists", JSON.obj [("field", JSON.str field)])])])]]
  else []

/-- A hit as the engine orders it: its relevance score and its exact house
name (the value of `house_name.keyword`). -/
structure ScoredHit (σ : Type) where
  score : σ
  houseName : String

/-- One key of a sort specification. -/
inductive SortKey where
  | score (descending : Bool)
  | houseName (descending : Bool)
  deriving Repr, DecidableEq

/-- The sort key one entry of a `sort` array stands for: `_score` or
`house_name.keyword`, with its order. -/
def sortKey : JSON → Option SortKey
  | JSON.obj [(k, JSON.obj [("order", JSON.str dir)])] =>
    if dir = "asc" ∨ dir = "desc" then
      if k = "_score" then some (SortKey.score (decide (dir = "desc")))
      else if k = "house_name.keyword" then some (SortKey.houseName (decide (dir = "desc")))
      else none
    else none
  | _ => none

/-- The sort keys of a `sort` array, in order. -/
def sortKeys : List JSON → Option (List SortKey)
  | [] => some []
  | x :: xs =>
    match sortKey x, sortKeys xs with
    | some k, some ks => some (k :: ks)
    | _, _ => none

/-- Comparison of two hits by one key. -/
def compareByKey {σ : Type} [LinearOrder σ] (k : SortKey) (a b : ScoredHit σ) : Ordering :=
  match k with
  | SortKey.score false =>
    if a.score < b.score then Ordering.lt else if a.score = b.score then Ordering.eq
    else Ordering.gt
  | SortKey.score true =>
    if b.score < a.score then Ordering.lt else if a.score = b.score then Ordering.eq
    else Ordering.gt
  | SortKey.houseName false =>
    if a.houseName < b.houseName then Ordering.lt
    else if a.houseName = b.houseName then Ordering.eq else Ordering.gt
  | SortKey.houseName true =>
    if b.houseName < a.houseName then Ordering.lt
    else if a.houseName = b.houseName then Ordering.eq else Ordering.gt

/-- Comparison of two hits by a list of keys: the first key that tells them
apart decides. -/
def compareHits {σ : Type} [LinearOrder σ] : List SortKey → ScoredHit σ → ScoredHit σ → Ordering
  | [], _, _ => Ordering.eq
  | k :: ks, a, b =>
    match compareByKey k a b with
    | Ordering.eq => compareHits ks a b
    | o => o

/-- Whether the engine returns hit `a` before hit `b` under the `sort` member
of a search body (none: the body has no sort the model reads). -/
def returnedBefore {σ : Type} [LinearOrder σ] (body : JSON) (a b : ScoredHit σ) : Option Bool :=
  match field "sort" body with
  | some (JSON.arr xs) => (sortKeys xs).map fun ks => compareHits ks a b == Ordering.lt
  | _ => none

/-- An engine that rejects every create body. -/
def rejectingWorld : World :=
  { emptyWorld with accepts := fun _ _ => false }

/-! ## Regular expressions of the engine -/

/-- Whether a character is a decimal digit. -/
def isDigit (c : Char) : Bool := decide (48 ≤ c.toNat ∧ c.toNat ≤ 57)

/-- Whether the first list is an initial segment of the second. -/
def startsWith : List Char → List Char → Bool
  | [], _ => true
  | _ :: _, [] => false
  | p :: ps, c :: cs => decide (p = c) && startsWith ps cs

/-- One-character matchers of the modelled fragment of the engine's regular
expressions: a literal character, a negated range `[^lo-hi]`, and `.`. -/
inductive Atom where
  | lit (c : Char)
  | notRange (lo hi : Char)
  | any
  deriving Repr, DecidableEq

/-- Whether an atom accepts a character. -/
def Atom.accepts : Atom → Char → Bool
  | Atom.lit x, c => decide (c = x)
  | Atom.notRange lo hi, c => !decide (lo.toNat ≤ c.toNat ∧ c.toNat ≤ hi.toNat)
  | Atom.any, _ => true

/-- Lexical items of a pattern: an atom, or the repetition operator `*`. -/
inductive Token where
  | atom (a : Atom)
  | star
  deriving Repr, DecidableEq

/-- An atom, possibly repeated (`*`). -/
structure Piece where
  atom : Atom
  starred : Bool
  deriving Repr, DecidableEq

/-- The characters the engine's regular expressions reserve as operators:
`. ? + * |`, braces, brackets, parentheses, the double quote, the backslash
and `# @ & < > ~`. -/
def isRegexpSpecial (c : Char) : Bool :=
  [46, 63, 43, 42, 124, 123, 125, 91, 93, 40, 41, 34, 92, 35, 64, 38, 60, 62, 126].contains
    c.toNat

/-- The lexical items of a pattern of the modelled fragment: `[^lo-hi]` is a
negated range, `.` any character, `*` the repetition operator, every character
that is not reserved stands for itself; `none` for a pattern outside the
fragment. -/
def regexpTokens : List Char → Option (List Token)
  | [] => some []
  | c :: rest =>
    if c = '[' then
      match rest with
      | x :: lo :: d :: hi :: y :: rest2 =>
        if x = '^' ∧ d = '-' ∧ y = ']' ∧ isRegexpSpecial lo = false ∧
            isRegexpSpecial hi = false then
          (regexpTokens rest2).map fun ts => Token.atom (Atom.notRange lo hi) :: ts
        else none
      | _ => none
    else if c = '.' then (regexpTokens rest).map fun ts => Token.atom Atom.any :: ts
    else if c = '*' then (regexpTokens rest).map fun ts => Token.star :: ts
    else if isRegexpSpecial c then none
    else (regexpTokens rest).map fun ts => Token.atom (Atom.lit c) :: ts

/-- The pieces of a token list: each atom with the `*` that follows it, if
any; `none` for a `*` that follows no atom. -/
def regexpPieces : List Token → Option (List Piece)
  | [] => some []
  | Token.star :: _ => none
  | Token.atom a :: Token.star :: rest =>
    (regexpPieces rest).map fun ps => { atom := a, starred := true } :: ps
  | Token.atom a :: rest =>
    (regexpPieces rest).map fun ps => { atom := a, starred := false } :: ps

/-- Matching of a repeated atom followed by the continuation `k`. -/
def matchStar (a : Atom) (k : List Char → Bool) : List Char → Bool
  | [] => k []
  | c :: cs => k (c :: cs) || (a.accepts c && matchStar a k cs)

/-- Whether a list of pieces matches a whole value (the engine's regular
expressions are anchored at both ends). -/
def matchPieces : List Piece → List Char → Bool
  | [], s => s.isEmpty
  | p :: ps, s =>
    if p.starred then matchStar p.atom (matchPieces ps) s
    else
      match s with
      | [] => false
      | c :: cs => p.atom.accepts c && matchPieces ps cs

/-- Whether a pattern matches a whole value; `none` for a pattern outside the
modelled fragment. -/
def regexpMatches (pattern value : String) : Option Bool :=
  match regexpTokens pattern.data with
  | none => none
  | some ts =>
    match regexpPieces ts with
    | none => none
    | some ps => some (matchPieces ps value.data)

/-! ## Boost functions of the address query in the engine -/

/-- What the model leaves to the engine when it evaluates the filters of the
boost functions: `regexp` is the verdict of a regular expression on a keyword
value (`none` when the engine does not evaluate the pattern), `edge` whether a
`match` on the edge-tokenised house name finds the term. -/
structure Matchers where
  regexp : String → String → Option Bool
  edge : String → String → Bool

/-- The matchers with the modelled fragment of regular expressions. -/
def fragmentMatchers (edge : String → String → Bool) : Matchers :=
  { regexp := regexpMatches, edge := edge }

/-- A stand-in for the analysis of a one-token house name: the term is found
when it is an initial segment of the name. -/
def edgeOfOneToken (term name : String) : Bool := startsWith term.data name.data

/-- Whether a leaf clause on the house name matches a document with that exact
house name: `term` is equality with the keyword, `prefix` an initial segment
of it, `regexp` and `match` are the engine's. -/
def houseClauseMatches (m : Matchers) (name : String) : JSON → Option Bool
  | JSON.obj [("term", JSON.obj [("house_name.keyword", JSON.str q)])] =>
    some (decide (name = q))
  | JSON.obj [("prefix", JSON.obj [("house_name.keyword", JSON.str q)])] =>
    some (startsWith q.data name.data)
  | JSON.obj [("regexp", JSON.obj [("house_name.keyword", JSON.str p)])] =>
    m.regexp p name
  | JSON.obj [("match", JSON.obj [("house_name.edge", JSON.str q)])] =>
    some (m.edge q name)
  | _ => none

/-- Whether every clause of a list matches. -/
def allClausesMatch (m : Matchers) (name : String) : List JSON → Option Bool
  | [] => some true
  | c :: cs =>
    match houseClauseMatches m name c, allClausesMatch m name cs with
    | some a, some b => some (a && b)
    | _, _ => none

/-- Whether the filter of a boost function matches: a leaf clause, or
`bool: must` of leaf clauses. -/
def functionFilterMatches (m : Matchers) (name : String) : JSON → Option Bool
  | JSON.obj [("bool", JSON.obj [("must", JSON.arr cs)])] => allClausesMatch m name cs
  | c => houseClauseMatches m name c

/-- The weights of the functions whose filter matches, in order. -/
def matchedWeights (m : Matchers) (name : String) : List JSON → Option (List Int)
  | [] => some []
  | JSON.obj [("filter", f), ("weight", JSON.num w)] :: rest =>
    match functionFilterMatches m name f, matchedWeights m name rest with
    | some b, some ws => some (if b then w :: ws else ws)
    | _, _ => none
  | _ :: _ => none

/-- The functions of a search body whose query is a `function_score` with
`score_mode: sum`. -/
def sumFunctions (body : JSON) : Option (List JSON) :=
  match field "query" body with
  | none => none
  | some q =>
    match field "function_score" q with
    | none => none
    | some fs =>
      if stringField "score_mode" fs = some "sum" then
        match field "functions" fs with
        | some (JSON.arr xs) => some xs
        | _ => none
      else none

/-- The summed boost of a document with that exact house name: the sum of the
weights of the functions whose filter matches it. -/
def summedBoost (m : Matchers) (body : JSON) (name : String) : Option Int :=
  match sumFunctions body with
  | none => none
  | some fs => (matchedWeights m name fs).map List.sum

/-- The factor the engine combines with the query score: the summed boost, or
the neutral factor 1 when no function matches. -/
def functionFactor (m : Matchers) (body : JSON) (name : String) : Option Int :=
  match sumFunctions body with
  | none => none
  | some fs => (matchedWeights m name fs).map fun ws => if ws.isEmpty then 1 else ws.sum

/-- The filter of the first function with the given weight. -/
def filterOfWeight (weight : Int) : List JSON → Option JSON
  | [] => none
  | JSON.obj [("filter", f), ("weight", JSON.num w)] :: rest =>
    if w = weight then some f else filterOfWeight weight rest
  | _ :: rest => filterOfWeight weight rest

/-- The filter of the weight-50 function of an address search body. -/
def weight50Filter (body : JSON) : Option JSON :=
  match sumFunctions body with
  | none => none
  | some fs => filterOfWeight 50 fs

/-! ## Service facade (`handlers`) -/

/-- The method `SearchServiceServer.IndexAddress`: the result is the message of
the internal-error status, if the operation fails. -/
def SearchServiceServer.IndexAddress (marshal : Address → Except Err String) (req : Address)
    (w : World) : Option String × World :=
  match SearchService.IndexAddress marshal req w with
  | (some _, w1) => (some "failed to index address", w1)
  | (none, w1) => (none, w1)

/-- The method `SearchServiceServer.IndexAddresses` on `req.Addresses`. -/
def SearchServiceServer.IndexAddresses (marshal : Address → Except Err String)
    (req : List Address) (w : World) : Option String × World :=
  match SearchService.EnsureIndexAddress w with
  | (some _, w1) => (some "failed to ensure index", w1)
  | (none, w1) =>
    match SearchService.IndexAddresses marshal req w1 with
    | (some _, w2) => (some "failed to index addresses", w2)
    | (none, w2) => (none, w2)

/-- The method `SearchServiceServer.IndexNode`. -/
def SearchServiceServer.IndexNode (marshal : Node → Except Err String) (req : Node)
    (w : World) : Option String × World :=
  match SearchService.IndexNode marshal req w with
  | (some _, w1) => (some "failed to index node", w1)
  | (none, w1) => (none, w1)

/-- The method `SearchServiceServer.IndexNodes` on `req.Nodes`. -/
def SearchServiceServer.IndexNodes (marshal : Node → Except Err String) (req : List Node)
    (w : World) : Option String × World :=
  match SearchService.EnsureIndexNode w with
  | (some _, w1) => (some "failed to ensure index", w1)
  | (none, w1) =>
    match SearchService.IndexNodes marshal req w1 with
    | (some _, w2) => (some "failed to index nodes", w2)
    | (none, w2) => (none, w2)

/-- The method `SearchServiceServer.IndexHardwareSingle`. -/
def SearchServiceServer.IndexHardwareSingle (marshal : Hardware → Except Err String)
    (req : Hardware) (w : World) : Option String × World :=
  match SearchService.IndexHardwareSingle marshal req w with
  | (some _, w1) => (some "failed to index hardware", w1)
  | (none, w1) => (none, w1)

/-- The method `SearchServiceServer.IndexHardware` on `req.Hardware`. -/
def SearchServiceServer.IndexHardware (marshal : Hardware → Except Err String)
    (req : List Hardware) (w : World) : Option String × World :=
  match SearchService.EnsureIndexHardware w with
  | (some _, w1) => (some "failed to ensure hardware", w1)
  | (none, w1) =>
    match SearchService.IndexHardware marshal req w1 with
    | (some _, w2) => (some "failed to index hardware", w2)
    | (none, w2) => (none, w2)

/-! ## Consumers (`kafka`) -/

/-- The outcome of code that may end in a run-time panic instead of
returning. -/
inductive Run (α : Type) where
  | done (a : α)
  | panic
  deriving Repr

/-- The struct `IndexNodeMessage`; a pointer is `none` when nil. -/
structure IndexNodeMessage where
  Type_ : String
  Node : Option SearchService.Node
  Nodes : List (Option SearchService.Node)
  deriving Repr

/-- The struct `IndexHardwareMessage`. -/
structure IndexHardwareMessage where
  Type_ : String
  HardwareSingle : Option Hardware
  Hardware : List (Option Hardware)
  deriving Repr

/-- The struct `IndexAddressMessage`. -/
structure IndexAddressMessage where
  Type_ : String
  Address : Option SearchService.Address
  Addresses : List (Option SearchService.Address)
  deriving Repr

/-- The loop of the bulk writers on a slice of entity pointers, as a consumer
passes it after decoding a message: an element may be nil (a `null` in the
payload's array), and reading the key of a nil element for the action line is
a nil-pointer dereference, a run-time panic. -/
def bulkBufferPtr {α : Type} (prepare : α → α) (idOf : α → Int)
    (marshal : α → Except Err String) : List (Option α) → String → Run (Except Err String)
  | [], buf => Run.done (Except.ok buf)
  | none :: _, _ => Run.panic
  | some x :: rest, buf =>
    let metaLine := actionLine (idOf x)
    match marshal (prepare x) with
    | Except.error e => Run.done (Except.error e)
    | Except.ok data =>
      let data := data ++ "\n"
      bulkBufferPtr prepare idOf marshal rest (buf ++ metaLine ++ data)

/-- The body of the bulk writers on a slice of entity pointers. -/
def bulkWritePtr {α : Type} (index : String) (prepare : α → α) (idOf : α → Int)
    (marshal : α → Except Err String) (items : List (Option α)) (w : World) :
    Run (Option Err × World) :=
  match bulkBufferPtr prepare idOf marshal items "" with
  | Run.panic => Run.panic
  | Run.done (Except.error e) => Run.done (some e, w)
  | Run.done (Except.ok buf) =>
    match w.perform (Request.Bulk index buf) with
    | (Except.error e, w1) => Run.done (some e, w1)
    | (Except.ok res, w1) =>
      match decodeBulkResponse res.Body with
      | none => Run.done (some Err.decode, w1)
      | some errors =>
        if errors then Run.done (some Err.bulkErrors, w1) else Run.done (none, w1)

/-- The body of the loop of `NodeConsumer.Start` for a message whose payload
decoded: both the provisioning error and the indexing error are logged and
dropped. -/
def NodeConsumer.handle (marshal : Node → Except Err String) (msg : IndexNodeMessage)
    (w : World) : Run World :=
  if msg.Type_ = "single" then
    match msg.Node with
    | some node =>
      let w1 := (EnsureIndexNode w).2
      Run.done (IndexNode marshal node w1).2
    | none => Run.done w
  else if msg.Type_ = "batch" then
    if msg.Nodes.length > 0 then
      let w1 := (EnsureIndexNode w).2
      match bulkWritePtr "nodes" normalizeNode (fun n => n.Id) marshal msg.Nodes w1 with
      | Run.panic => Run.panic
      | Run.done r => Run.done r.2
    else Run.done w
  else Run.done w

/-- The method `NodeConsumer.Start` on a reader that delivers the given
messages and then fails with the read error `e`.  A message is given by the
result of decoding its payload (`none`: the payload does not decode). -/
def NodeConsumer.Start (marshal : Node → Except Err String) :
    List (Option IndexNodeMessage) → String → World → Run (String × World)
  | [], e, w => Run.done (e, w)
  | none :: rest, e, w => NodeConsumer.Start marshal rest e w
  | some msg :: rest, e, w =>
    match NodeConsumer.handle marshal msg w with
    | Run.panic => Run.panic
    | Run.done w1 => NodeConsumer.Start marshal rest e w1

/-- The body of the loop of `HardwareConsumer.Start` for a decoded message. -/
def HardwareConsumer.handle (marshal : Hardware → Except Err String)
    (msg : IndexHardwareMessage) (w : World) : Run World :=
  if msg.Type_ = "single" then
    match msg.HardwareSingle with
    | some hardware =>
      let w1 := (EnsureIndexHardware w).2
      Run.done (IndexHardwareSingle marshal hardware w1).2
    | none => Run.done w
  else if msg.Type_ = "batch" then
    if msg.Hardware.length > 0 then
      let w1 := (EnsureIndexHardware w).2
      match bulkWritePtr "hardware" normalizeHardware (fun h => h.Id) marshal msg.Hardware
          w1 with
      | Run.panic => Run.panic
      | Run.done r => Run.done r.2
    else Run.done w
  else Run.done w

/-- The method `HardwareConsumer.Start`. -/
def HardwareConsumer.Start (marshal : Hardware → Except Err String) :
    List (Option IndexHardwareMessage) → String → World → Run (String × World)
  | [], e, w => Run.done (e, w)
  | none :: rest, e, w => HardwareConsumer.Start marshal rest e w
  | some msg :: rest, e, w =>
    match HardwareConsumer.handle marshal msg w with
    | Run.panic => Run.panic
    | Run.done w1 => HardwareConsumer.Start marshal rest e w1

/-- The body of the loop of `AddressConsumer.Start` for a decoded message:
only the batch field is looked at, whatever the type. -/
def AddressConsumer.handle (marshal : Address → Except Err String)
    (msg : IndexAddressMessage) (w : World) : Run World :=
  if msg.Addresses.length > 0 then
    let w1 := (EnsureIndexAddress w).2
    match bulkWritePtr "addresses" id (fun a => a.HouseId) marshal msg.Addresses w1 with
    | Run.panic => Run.panic
    | Run.done r => Run.done r.2
  else Run.done w

/-- The method `AddressConsumer.Start`. -/
def AddressConsumer.Start (marshal : Address → Except Err String) :
    List (Option IndexAddressMessage) → String → World → Run (String × World)
  | [], e, w => Run.done (e, w)
  | none :: rest, e, w => AddressConsumer.Start marshal rest e w
  | some msg :: rest, e, w =>
    match AddressConsumer.handle marshal msg w with
    | Run.panic => Run.panic
    | Run.done w1 => AddressConsumer.Start marshal rest e w1

/-- Whether, in a sequence of requests, every write to an index (a
single-document index request or a bulk request) comes after an existence
check of that index, the first request of a provisioning call.  `seen` holds
the indices checked so far. -/
def writesProvisioned : List String → List Request → Bool
  | _, [] => true
  | seen, Request.IndicesExists index :: rest => writesProvisioned (index :: seen) rest
  | seen, Request.Index index _ _ :: rest => seen.contains index && writesProvisioned seen rest
  | seen, Request.Bulk index _ :: rest => seen.contains index && writesProvisioned seen rest
  | seen, _ :: rest => writesProvisioned seen rest

/-- Whether no batch of a node message holds a nil element. -/
def NodeMessagesNilFree (msgs : List (Option IndexNodeMessage)) : Prop :=
  ∀ msg, some msg ∈ msgs → ∀ x ∈ msg.Nodes, x ≠ none

/-- Whether no batch of a hardware message holds a nil element. -/
def HardwareMessagesNilFree (msgs : List (Option IndexHardwareMessage)) : Prop :=
  ∀ msg, some msg ∈ msgs → ∀ x ∈ msg.Hardware, x ≠ none

/-- Whether no batch of an address message holds a nil element. -/
def AddressMessagesNilFree (msgs : List (Option IndexAddressMessage)) : Prop :=
  ∀ msg, some msg ∈ msgs → ∀ x ∈ msg.Addresses, x ≠ none

/-- A node message of type `batch` whose array holds one `null`. -/
def nullBatchNodeMessage : IndexNodeMessage :=
  { Type_ := "batch", Node := none, Nodes := [none] }

/-- A node message of type `single` carrying the sample node. -/
def singleNodeMessage : IndexNodeMessage :=
  { Type_ := "single", Node := some sampleNode, Nodes := [] }

/-- A hardware message of type `batch` whose array holds one `null`. -/
def nullBatchHardwareMessage : IndexHardwareMessage :=
  { Type_ := "batch", HardwareSingle := none, Hardware := [none] }

/-- An address message whose array holds one `null`. -/
def nullBatchAddressMessage : IndexAddressMessage :=
  { Type_ := "batch", Address := none, Addresses := [none] }

/-- The requests sent between two states of the engine client are such that
every write comes after an existence check of its index. -/
def ProvisionsWrites (before after : World) : Prop :=
  ∃ new, after.sent = before.sent ++ new ∧ writesProvisioned [] new = true

/-! ## Bulk action lines as the spec words them -/

/-- Where a reader of JSON text stands: between tokens, inside a string, or
right after a backslash inside a string. -/
inductive Lex where
  | out
  | str
  | esc
  deriving Repr, DecidableEq

/-- JSON text without the insignificant white space between its tokens; what
stands inside a string is kept as it is. -/
def compact : Lex → List Char → List Char
  | _, [] => []
  | Lex.out, c :: cs =>
    if c = ' ' ∨ c = '\t' ∨ c = '\n' ∨ c = '\r' then compact Lex.out cs
    else if c = '"' then c :: compact Lex.str cs
    else c :: compact Lex.out cs
  | Lex.str, c :: cs =>
    if c = '"' then c :: compact Lex.out cs
    else if c = '\\' then c :: compact Lex.esc cs
    else c :: compact Lex.str cs
  | Lex.esc, c :: cs => c :: compact Lex.str cs

/-- The index action of the engine's bulk interface that carries the target
identifier: the object whose only member `index` holds the member `_id`. -/
def indexAction (id : String) : JSON :=
  JSON.obj [("index", JSON.obj [("_id", JSON.str id)])]

/-- The line is an index action whose `_id` is the decimal rendering of the
key: white space between tokens apart, it is the JSON text of that action. -/
def IsIndexAction (line : String) (key : Int) : Prop :=
  compact Lex.out line.data = (render (indexAction (Sprint key))).data

instance (line : String) (key : Int) : Decidable (IsIndexAction line key) :=
  inferInstanceAs (Decidable (_ = _))

theorem digitValue_digitChar (d : Nat) (h : d < 10) :
    digitValue (Nat.digitChar d) = some d := by
  interval_cases d <;> rfl

theorem parseDigits_toDigitsCore (fuel : Nat) :
    ∀ (n : Nat) (ds : List Char), n < fuel →
      parseDigits (Nat.toDigitsCore 10 fuel n ds) 0 = parseDigits ds n := by
  induction fuel with
  | zero => intro n ds h; omega
  | succ fuel ih =>
    intro n ds h
    have hd : digitValue (Nat.digitChar (n % 10)) = some (n % 10) :=
      digitValue_digitChar _ (Nat.mod_lt _ (by decide))
    unfold Nat.toDigitsCore
    by_cases h0 : n / 10 = 0
    · simp only [h0, if_true]
      have hn : n % 10 = n := Nat.mod_eq_of_lt (by omega)
      simp only [parseDigits, hd]
      congr 1
      omega
    · simp only [h0, if_false]
      rw [ih (n / 10) _ (by omega)]
      simp only [parseDigits, hd]
      congr 1
      omega

theorem toDigitsCore_head (fuel : Nat) :
    ∀ (n : Nat) (ds : List Char), n < fuel →
      ∃ d cs, d < 10 ∧ Nat.toDigitsCore 10 fuel n ds = Nat.digitChar d :: cs := by
  induction fuel with
  | zero => intro n ds h; omega
  | succ fuel ih =>
    intro n ds h
    unfold Nat.toDigitsCore
    by_cases h0 : n / 10 = 0
    · simp only [h0, if_true]
      exact ⟨n % 10, ds, Nat.mod_lt _ (by decide), rfl⟩
    · simp only [h0, if_false]
      exact ih (n / 10) _ (by omega)

theorem unsigned_digit (d : Nat) (cs : List Char) (h : d < 10) :
    unsigned (Nat.digitChar d :: cs) = Nat.digitChar d :: cs := by
  interval_cases d <;> rfl

theorem head_digit_ne_minus (d : Nat) (h : d < 10) : Nat.digitChar d ≠ '-' := by
  interval_cases d <;> decide

theorem Atoi_of_parse (s : String) (c : Char) (cs : List Char) (n : Nat)
    (hb : unsigned s.data = c :: cs) (hp : parseDigits (c :: cs) 0 = some n) :
    Atoi s =
      if -(2 : Int) ^ 63 ≤ (if s.data.head? = some '-' then -(n : Int) else (n : Int)) ∧
          (if s.data.head? = some '-' then -(n : Int) else (n : Int)) < (2 : Int) ^ 63
      then some (if s.data.head? = some '-' then -(n : Int) else (n : Int)) else none := by
  unfold Atoi
  rw [hb]
  simp only [hp]

theorem Atoi_ofNat (n : Nat) (h : (n : Int) < 2 ^ 63) :
    Atoi (Sprint (Int.ofNat n)) = some (n : Int) := by
  obtain ⟨d, cs, hd, hcs⟩ := toDigitsCore_head (n + 1) n [] (by omega)
  have hdata : (Sprint (Int.ofNat n)).data = Nat.digitChar d :: cs := hcs
  have hp : parseDigits (Nat.digitChar d :: cs) 0 = some n := by
    rw [← hcs, parseDigits_toDigitsCore (n + 1) n [] (by omega)]; rfl
  have hne : Nat.digitChar d ≠ '-' := head_digit_ne_minus d hd
  have hb : unsigned (Sprint (Int.ofNat n)).data = Nat.digitChar d :: cs := by
    rw [hdata]; exact unsigned_digit d cs hd
  rw [Atoi_of_parse _ _ _ n hb hp, hdata]
  have hge : -(2 : Int) ^ 63 ≤ (n : Int) := by
    have : (0 : Int) ≤ (n : Int) := Int.ofNat_nonneg n
    omega
  simp only [List.head?_cons, Option.some.injEq, hne, if_false]
  rw [if_pos ⟨hge, h⟩]

theorem Atoi_negSucc (m : Nat) (h : -(2 : Int) ^ 63 ≤ Int.negSucc m) :
    Atoi (Sprint (Int.negSucc m)) = some (Int.negSucc m) := by
  obtain ⟨d, cs, hd, hcs⟩ := toDigitsCore_head (m + 1 + 1) (m + 1) [] (by omega)
  have hdata : (Sprint (Int.negSucc m)).data = '-' :: Nat.digitChar d :: cs := by
    rw [← hcs]; rfl
  have hp : parseDigits (Nat.digitChar d :: cs) 0 = some (m + 1) := by
    rw [← hcs, parseDigits_toDigitsCore (m + 1 + 1) (m + 1) [] (by omega)]; rfl
  have hb : unsigned (Sprint (Int.negSucc m)).data = Nat.digitChar d :: cs := by
    rw [hdata]; rfl
  rw [Atoi_of_parse _ _ _ (m + 1) hb hp, hdata]
  have hv : -((m + 1 : Nat) : Int) = Int.negSucc m := by
    simp [Int.negSucc_eq]
  have hlt : Int.negSucc m < (2 : Int) ^ 63 := by
    have : Int.negSucc m < 0 := Int.negSucc_lt_zero m
    omega
  simp only [List.head?_cons, if_true]
  rw [hv, if_pos ⟨h, hlt⟩]

/-- Parsing the decimal text of an integer in the range of `int` gives the
integer back. -/
theorem Atoi_Sprint (k : Int) (h : -(2 : Int) ^ 63 ≤ k ∧ k < (2 : Int) ^ 63) :
    Atoi (Sprint k) = some k := by
  cases k with
  | ofNat n => exact Atoi_ofNat n h.2
  | negSucc m => exact Atoi_negSucc m h.1

theorem toInt32_of_range (k : Int) (h : IsInt32 k) : toInt32 k = k := by
  unfold IsInt32 at h
  unfold toInt32
  omega

/-! ## Lemmas: the client and result extraction -/

theorem perform_search (w : World) (index : String) (body : JSON)
    (h : w.net w.sent.length = none) :
    w.perform (Request.Search index body) =
      (Except.ok (w.reply w.sent.length),
       { w with sent := w.sent ++ [Request.Search index body] }) := by
  simp [World.perform, World.handle, h]

theorem perform_fails (w : World) (r : Request) (msg : String)
    (h : w.net w.sent.length = some msg) :
    w.perform r = (Except.error (Err.transport msg), { w with sent := w.sent ++ [r] }) := by
  simp [World.perform, h]

theorem collectIds_written (ks : List Int) :
    ∀ acc : List Int, (∀ k ∈ ks, IsInt32 k) →
      collectIds (ks.map fun k => ({ ID := Sprint k } : Hit)) acc = Except.ok (acc ++ ks) := by
  induction ks with
  | nil => intro acc _; simp [collectIds]
  | cons k ks ih =>
    intro acc h
    have hk : IsInt32 k := h k (List.mem_cons_self k ks)
    have h64 : -(2 : Int) ^ 63 ≤ k ∧ k < (2 : Int) ^ 63 := by
      unfold IsInt32 at hk; omega
    simp only [List.map_cons, collectIds, Atoi_Sprint k h64, toInt32_of_range k hk]
    rw [ih (acc ++ [k]) (fun x hx => h x (List.mem_cons_of_mem k hx))]
    simp

theorem collectIds_invalid (hits : List Hit) :
    ∀ acc : List Int, (∃ h ∈ hits, Atoi h.ID = none) →
      ∃ bad, collectIds hits acc = Except.error bad ∧ Atoi bad = none := by
  induction hits with
  | nil => intro acc h; obtain ⟨x, hx, _⟩ := h; cases hx
  | cons hit rest ih =>
    intro acc h
    cases hA : Atoi hit.ID with
    | none => exact ⟨hit.ID, by simp [collectIds, hA], hA⟩
    | some id =>
      have hrest : ∃ x ∈ rest, Atoi x.ID = none := by
        obtain ⟨x, hx, hxa⟩ := h
        rcases List.mem_cons.mp hx with rfl | hmem
        · rw [hA] at hxa; cases hxa
        · exact ⟨x, hmem, hxa⟩
      obtain ⟨bad, hb, hbad⟩ := ih (acc ++ [toInt32 id]) hrest
      exact ⟨bad, by simp [collectIds, hA, hb], hbad⟩

/-! ## Lemmas: key matching in the decoder -/

theorem fieldMatches_eq_fold (name key : String) :
    fieldMatches name key = decide (foldName key = foldName name) := by
  unfold fieldMatches
  by_cases h : key = name
  · subst h; simp
  · simp [h]

theorem fieldMatches_Total (key : String) :
    fieldMatches "Total" key = fieldMatches "total" key := by
  rw [fieldMatches_eq_fold, fieldMatches_eq_fold]
  have h : foldName "Total" = foldName "total" := by decide
  rw [h]

theorem decodeHitsFields_Total (kvs : List (String × JSON)) :
    ∀ acc, decodeHitsFields "Total" kvs acc = decodeHitsFields "total" kvs acc := by
  induction kvs with
  | nil => intro acc; rfl
  | cons p rest ih =>
    intro acc
    obtain ⟨k, v⟩ := p
    obtain ⟨r, e⟩ := acc
    simp only [decodeHitsFields, fieldMatches_Total, ih]

theorem decodeTopFields_Total (kvs : List (String × JSON)) :
    ∀ acc, decodeTopFields "Total" kvs acc = decodeTopFields "total" kvs acc := by
  induction kvs with
  | nil => intro acc; rfl
  | cons p rest ih =>
    intro acc
    obtain ⟨k, v⟩ := p
    obtain ⟨r, e⟩ := acc
    have hh : ∀ (old : SearchResponse) (j : JSON),
        decodeHits "Total" old j = decodeHits "total" old j := by
      intro old j
      cases j <;> simp [decodeHits, decodeHitsFields_Total]
    simp only [decodeTopFields, hh, ih]

/-- The decoder of `SearchHardware` (field name `Total`) and the decoder of the
other two operations (tag `total`) agree on every body. -/
theorem decodeSearchResponse_Total (body : Option JSON) :
    decodeSearchResponse "Total" body = decodeSearchResponse "total" body := by
  cases body with
  | none => rfl
  | some j => cases j <;> simp [decodeSearchResponse, decodeTopFields_Total]

/-! ## Lemmas: decoding an unambiguous response -/

theorem fieldMatches_self (name : String) : fieldMatches name name = true := by
  simp [fieldMatches]

theorem lookup_selects (name : String) (v : JSON) (kvs : List (String × JSON)) :
    lookup name kvs = some v →
      0 < (kvs.filter fun p => fieldMatches name p.1).length := by
  induction kvs with
  | nil => intro h; simp [lookup] at h
  | cons p rest ih =>
    obtain ⟨k, x⟩ := p
    intro h
    by_cases hk : k = name
    · subst hk; simp [List.filter, fieldMatches_self]
    · simp only [lookup, hk, if_false] at h
      have := ih h
      by_cases hm : fieldMatches name k = true
      · simp [List.filter, hm]
      · simp only [Bool.not_eq_true] at hm
        simpa [List.filter, hm] using this

/-- In an unambiguous member list whose first member selects the field, that
member is the looked-up one and no later member selects the field. -/
theorem unambiguous_head (name k : String) (x v : JSON) (rest : List (String × JSON))
    (hm : fieldMatches name k = true)
    (hl : lookup name ((k, x) :: rest) = some v)
    (hu : Unambiguous name ((k, x) :: rest)) :
    x = v ∧ (rest.filter fun p => fieldMatches name p.1) = [] := by
  unfold Unambiguous at hu
  simp only [List.filter, hm, List.length_cons] at hu
  have hnil : (rest.filter fun p => fieldMatches name p.1) = [] :=
    List.length_eq_zero.mp (by omega)
  refine ⟨?_, hnil⟩
  by_cases hk : k = name
  · simp only [lookup, hk, if_true, Option.some.injEq] at hl
    exact hl
  · simp only [lookup, hk, if_false] at hl
    have := lookup_selects name v rest hl
    rw [hnil] at this
    simp at this

/-- In an unambiguous member list whose first member does not select the
field, the lookup and the unambiguity pass to the tail. -/
theorem unambiguous_tail (name k : String) (x v : JSON) (rest : List (String × JSON))
    (hm : fieldMatches name k = false)
    (hl : lookup name ((k, x) :: rest) = some v)
    (hu : Unambiguous name ((k, x) :: rest)) :
    lookup name rest = some v ∧ Unambiguous name rest := by
  have hk : k ≠ name := by
    intro h; subst h; rw [fieldMatches_self] at hm; cases hm
  unfold Unambiguous at hu ⊢
  simp only [List.filter, hm] at hu
  simp only [lookup, hk, if_false] at hl
  exact ⟨hl, hu⟩

theorem decodeTotalFields_skip (kvs : List (String × JSON)) :
    ∀ acc, (kvs.filter fun p => fieldMatches "value" p.1) = [] →
      decodeTotalFields kvs acc = acc := by
  induction kvs with
  | nil => intro acc _; rfl
  | cons p rest ih =>
    obtain ⟨k, x⟩ := p
    intro acc h
    obtain ⟨t, e⟩ := acc
    by_cases hm : fieldMatches "value" k = true
    · simp [List.filter, hm] at h
    · simp only [Bool.not_eq_true] at hm
      simp only [List.filter, hm] at h
      simp only [decodeTotalFields, hm, Bool.false_eq_true, if_false]
      exact ih _ h

theorem decodeTotalFields_unique (v : JSON) (kvs : List (String × JSON)) :
    ∀ (t : Int) (e : Bool), lookup "value" kvs = some v → Unambiguous "value" kvs →
      decodeTotalFields kvs (t, e) = ((decodeInt32 t v).1, e || (decodeInt32 t v).2) := by
  induction kvs with
  | nil => intro t e h; simp [lookup] at h
  | cons p rest ih =>
    obtain ⟨k, x⟩ := p
    intro t e hl hu
    by_cases hm : fieldMatches "value" k = true
    · obtain ⟨hx, hnil⟩ := unambiguous_head "value" k x v rest hm hl hu
      subst hx
      simp only [decodeTotalFields, hm, if_true]
      exact decodeTotalFields_skip rest _ hnil
    · simp only [Bool.not_eq_true] at hm
      obtain ⟨hl2, hu2⟩ := unambiguous_tail "value" k x v rest hm hl hu
      simp only [decodeTotalFields, hm, Bool.false_eq_true, if_false]
      exact ih t e hl2 hu2

theorem decodeHitsFields_sticky (name : String) (kvs : List (String × JSON)) :
    ∀ (r : SearchResponse) (e : Bool),
      (decodeHitsFields name kvs (r, e)).2 = false → e = false := by
  induction kvs with
  | nil => intro r e h; exact h
  | cons p rest ih =>
    obtain ⟨k, x⟩ := p
    intro r e h
    simp only [decodeHitsFields] at h
    split at h
    · have := ih _ _ h
      simp only [Bool.or_eq_false_iff] at this
      exact this.1
    · split at h
      · have := ih _ _ h
        simp only [Bool.or_eq_false_iff] at this
        exact this.1
      · exact ih _ _ h

theorem decodeHitsFields_skip_Total (kvs : List (String × JSON)) :
    ∀ (r : SearchResponse) (e : Bool),
      (kvs.filter fun p => fieldMatches "total" p.1) = [] →
        (decodeHitsFields "total" kvs (r, e)).1.Total = r.Total := by
  induction kvs with
  | nil => intro r e _; rfl
  | cons p rest ih =>
    obtain ⟨k, x⟩ := p
    intro r e h
    by_cases hm : fieldMatches "total" k = true
    · simp [List.filter, hm] at h
    · simp only [Bool.not_eq_true] at hm
      simp only [List.filter, hm] at h
      simp only [decodeHitsFields, hm, Bool.false_eq_true, if_false]
      split
      · rw [ih _ _ h]
      · exact ih _ _ h

theorem decodeHitsFields_unique (v : JSON) (kvs : List (String × JSON)) :
    ∀ (r : SearchResponse) (e : Bool),
      lookup "total" kvs = some v → Unambiguous "total" kvs →
        (decodeHitsFields "total" kvs (r, e)).1.Total = (decodeTotal r.Total v).1 ∧
        ((decodeHitsFields "total" kvs (r, e)).2 = false → (decodeTotal r.Total v).2 = false) := by
  induction kvs with
  | nil => intro r e h; simp [lookup] at h
  | cons p rest ih =>
    obtain ⟨k, x⟩ := p
    intro r e hl hu
    by_cases hm : fieldMatches "total" k = true
    · obtain ⟨hx, hnil⟩ := unambiguous_head "total" k x v rest hm hl hu
      subst hx
      simp only [decodeHitsFields, hm, if_true]
      refine ⟨?_, ?_⟩
      · rw [decodeHitsFields_skip_Total rest _ _ hnil]
      · intro hf
        have := decodeHitsFields_sticky "total" rest _ _ hf
        simp only [Bool.or_eq_false_iff] at this
        exact this.2
    · simp only [Bool.not_eq_true] at hm
      obtain ⟨hl2, hu2⟩ := unambiguous_tail "total" k x v rest hm hl hu
      simp only [decodeHitsFields, hm, Bool.false_eq_true, if_false]
      split
      · exact ih _ _ hl2 hu2
      · exact ih _ _ hl2 hu2

theorem decodeTopFields_skip (name : String) (kvs : List (String × JSON)) :
    ∀ acc, (kvs.filter fun p => fieldMatches "hits" p.1) = [] →
      decodeTopFields name kvs acc = acc := by
  induction kvs with
  | nil => intro acc _; rfl
  | cons p rest ih =>
    obtain ⟨k, x⟩ := p
    intro acc h
    obtain ⟨t, e⟩ := acc
    by_cases hm : fieldMatches "hits" k = true
    · simp [List.filter, hm] at h
    · simp only [Bool.not_eq_true] at hm
      simp only [List.filter, hm] at h
      simp only [decodeTopFields, hm, Bool.false_eq_true, if_false]
      exact ih _ h

theorem decodeTopFields_unique (name : String) (v : JSON) (kvs : List (String × JSON)) :
    ∀ (r : SearchResponse) (e : Bool),
      lookup "hits" kvs = some v → Unambiguous "hits" kvs →
        decodeTopFields name kvs (r, e) =
          ((decodeHits name r v).1, e || (decodeHits name r v).2) := by
  induction kvs with
  | nil => intro r e h; simp [lookup] at h
  | cons p rest ih =>
    obtain ⟨k, x⟩ := p
    intro r e hl hu
    by_cases hm : fieldMatches "hits" k = true
    · obtain ⟨hx, hnil⟩ := unambiguous_head "hits" k x v rest hm hl hu
      subst hx
      simp only [decodeTopFields, hm, if_true]
      exact decodeTopFields_skip name rest _ hnil
    · simp only [Bool.not_eq_true] at hm
      obtain ⟨hl2, hu2⟩ := unambiguous_tail "hits" k x v rest hm hl hu
      simp only [decodeTopFields, hm, Bool.false_eq_true, if_false]
      exact ih r e hl2 hu2

/-- A decoded response carries, as its total, the number at `hits.total.value`
of an unambiguous body. -/
theorem decoded_total (top hs ts : List (String × JSON)) (v : Int) (r : SearchResponse)
    (h1 : lookup "hits" top = some (JSON.obj hs)) (u1 : Unambiguous "hits" top)
    (h2 : lookup "total" hs = some (JSON.obj ts)) (u2 : Unambiguous "total" hs)
    (h3 : lookup "value" ts = some (JSON.num v)) (u3 : Unambiguous "value" ts)
    (hdec : decodeSearchResponse "total" (some (JSON.obj top)) = some r) :
    r.Total = v := by
  simp only [decodeSearchResponse] at hdec
  rw [decodeTopFields_unique "total" _ top _ _ h1 u1] at hdec
  simp only [decodeHits, Bool.false_or] at hdec
  obtain ⟨hT, hF⟩ := decodeHitsFields_unique _ hs { Total := 0, Hits := [] } false h2 u2
  generalize hres : decodeHitsFields "total" hs ({ Total := 0, Hits := [] }, false) = res at hdec hT hF
  obtain ⟨r1, e1⟩ := res
  cases e1 with
  | true => simp at hdec
  | false =>
    simp only [Option.some.injEq] at hdec
    subst hdec
    have hflag := hF rfl
    simp only [decodeTotal] at hT hflag
    rw [decodeTotalFields_unique _ ts _ _ h3 u3] at hT hflag
    simp only [Bool.false_or] at hT hflag
    simp only [decodeInt32] at hT hflag
    split at hflag
    · rename_i hr
      simp only [hr, and_self, if_true] at hT
      exact hT
    · cases hflag

/-! ## Lemmas: the search operations on a delivered response -/

theorem extractResult_Total (res : Response) :
    extractResult "Total" res = extractResult "total" res := by
  simp only [extractResult, decodeSearchResponse_Total]

theorem SearchAddresses_delivered (sa : SearchAddress) (w : World)
    (hnet : w.net w.sent.length = none) :
    (SearchAddresses sa w).1 = extractResult "total" (w.reply w.sent.length) := by
  simp only [SearchAddresses, perform_search w _ _ hnet]

theorem SearchNodes_delivered (s : Search) (nf : Option SearchNodeFilter) (w : World)
    (hnet : w.net w.sent.length = none) :
    (SearchNodes s nf w).1 = extractResult "total" (w.reply w.sent.length) := by
  simp only [SearchNodes, perform_search w _ _ hnet]

theorem SearchHardware_delivered (s : Search) (hf : Option SearchHardwareFilter) (w : World)
    (hnet : w.net w.sent.length = none) :
    (SearchHardware s hf w).1 = extractResult "total" (w.reply w.sent.length) := by
  simp only [SearchHardware, perform_search w _ _ hnet, extractResult_Total]

theorem extractResult_written (res : Response) (r : SearchResponse) (ks : List Int)
    (hks : ∀ k ∈ ks, IsInt32 k)
    (hdec : decodeSearchResponse "total" res.Body = some r)
    (hhits : r.Hits = ks.map fun k => ({ ID := Sprint k } : Hit)) :
    extractResult "total" res = { ids := ks, total := r.Total, err := none } := by
  simp only [extractResult, hdec, hhits, collectIds_written ks [] hks, List.nil_append]

theorem extractResult_invalid (res : Response) (r : SearchResponse)
    (hdec : decodeSearchResponse "total" res.Body = some r)
    (hbad : ∃ h ∈ r.Hits, Atoi h.ID = none) :
    ∃ bad, Atoi bad = none ∧
      extractResult "total" res = { ids := [], total := 0, err := some (Err.invalidId bad) } := by
  obtain ⟨bad, hc, hA⟩ := collectIds_invalid r.Hits [] hbad
  exact ⟨bad, hA, by simp only [extractResult, hdec, hc]⟩

theorem extractResult_total (res : Response) (top hs ts : List (String × JSON)) (v : Int)
    (hbody : res.Body = some (JSON.obj top))
    (h1 : lookup "hits" top = some (JSON.obj hs)) (u1 : Unambiguous "hits" top)
    (h2 : lookup "total" hs = some (JSON.obj ts)) (u2 : Unambiguous "total" hs)
    (h3 : lookup "value" ts = some (JSON.num v)) (u3 : Unambiguous "value" ts)
    (herr : (extractResult "total" res).err = none) :
    (extractResult "total" res).total = v := by
  unfold extractResult at herr ⊢
  cases hdec : decodeSearchResponse "total" res.Body with
  | none => rw [hdec] at herr; simp at herr
  | some r =>
    rw [hdec] at herr
    simp only at herr ⊢
    have hT : r.Total = v := by
      rw [hbody] at hdec
      exact decoded_total top hs ts v r h1 u1 h2 u2 h3 u3 hdec
    cases hc : collectIds r.Hits [] with
    | error bad => rw [hc] at herr; simp at herr
    | ok ids => simp only [hT]

/-! ## Claims C3, C4, C5: result extraction -/

/-- C3: when the hits of a decoded engine response carry, in order, the decimal
renderings of integer keys `ks` (as the writers assign identifiers), each of
`SearchAddresses`, `SearchNodes` and `SearchHardware` returns exactly the list
`ks`, without error. -/
theorem search_returns_written_keys (ks : List Int) (hks : ∀ k ∈ ks, IsInt32 k)
    (w : World) (r : SearchResponse)
    (hnet : w.net w.sent.length = none)
    (hdec : decodeSearchResponse "total" (w.reply w.sent.length).Body = some r)
    (hhits : r.Hits = ks.map fun k => ({ ID := Sprint k } : Hit))
    (sa : SearchAddress) (s : Search) (nf : Option SearchNodeFilter)
    (hf : Option SearchHardwareFilter) :
    (SearchAddresses sa w).1 = { ids := ks, total := r.Total, err := none } ∧
    (SearchNodes s nf w).1 = { ids := ks, total := r.Total, err := none } ∧
    (SearchHardware s hf w).1 = { ids := ks, total := r.Total, err := none } := by
  rw [SearchAddresses_delivered sa w hnet, SearchNodes_delivered s nf w hnet,
    SearchHardware_delivered s hf w hnet]
  have h := extractResult_written _ r ks hks hdec hhits
  exact ⟨h, h, h⟩

/-- Witness of C3: a response with the identifiers `12` and `-7`. -/
theorem search_returns_written_keys_witness :
    (SearchAddresses ⟨0, 10, "Bak", ""⟩ twoHitsWorld).1 =
        { ids := [12, -7], total := 2, err := none } ∧
    (SearchNodes ⟨0, 10, "n5"⟩ none twoHitsWorld).1 =
        { ids := [12, -7], total := 2, err := none } ∧
    (SearchHardware ⟨0, 10, "n5"⟩ none twoHitsWorld).1 =
        { ids := [12, -7], total := 2, err := none } :=
  search_returns_written_keys [12, -7] (by decide) twoHitsWorld
    { Total := 2, Hits := [{ ID := "12" }, { ID := "-7" }] } rfl (by decide) (by decide)
    ⟨0, 10, "Bak", ""⟩ ⟨0, 10, "n5"⟩ none none

/-- C4: for a delivered response whose body is unambiguous and carries the
number `v` at `hits.total.value`, each search operation that returns without
error (the body decodes, every identifier is an integer) returns the total `v`;
and `SearchHardware`, whose struct names the field `Total` without a tag,
returns the same result as the other two on the same response. -/
theorem total_is_hits_total_value (w : World) (top hs ts : List (String × JSON)) (v : Int)
    (hnet : w.net w.sent.length = none)
    (hbody : (w.reply w.sent.length).Body = some (JSON.obj top))
    (h1 : lookup "hits" top = some (JSON.obj hs)) (u1 : Unambiguous "hits" top)
    (h2 : lookup "total" hs = some (JSON.obj ts)) (u2 : Unambiguous "total" hs)
    (h3 : lookup "value" ts = some (JSON.num v)) (u3 : Unambiguous "value" ts)
    (sa : SearchAddress) (s : Search) (nf : Option SearchNodeFilter)
    (hf : Option SearchHardwareFilter) :
    ((SearchAddresses sa w).1.err = none → (SearchAddresses sa w).1.total = v) ∧
    ((SearchNodes s nf w).1.err = none → (SearchNodes s nf w).1.total = v) ∧
    ((SearchHardware s hf w).1.err = none → (SearchHardware s hf w).1.total = v) ∧
    (SearchHardware s hf w).1 = (SearchAddresses sa w).1 ∧
    (SearchHardware s hf w).1 = (SearchNodes s nf w).1 := by
  rw [SearchAddresses_delivered sa w hnet, SearchNodes_delivered s nf w hnet,
    SearchHardware_delivered s hf w hnet]
  have h := extractResult_total _ top hs ts v hbody h1 u1 h2 u2 h3 u3
  exact ⟨h, h, h, rfl, rfl⟩

/-- Witness of C4: the response with total 2 and two valid identifiers. -/
theorem total_is_hits_total_value_witness :
    ((SearchAddresses ⟨0, 10, "Bak", ""⟩ twoHitsWorld).1.err = none →
      (SearchAddresses ⟨0, 10, "Bak", ""⟩ twoHitsWorld).1.total = 2) ∧
    ((SearchNodes ⟨0, 10, "n5"⟩ none twoHitsWorld).1.err = none →
      (SearchNodes ⟨0, 10, "n5"⟩ none twoHitsWorld).1.total = 2) ∧
    ((SearchHardware ⟨0, 10, "n5"⟩ none twoHitsWorld).1.err = none →
      (SearchHardware ⟨0, 10, "n5"⟩ none twoHitsWorld).1.total = 2) ∧
    (SearchHardware ⟨0, 10, "n5"⟩ none twoHitsWorld).1 =
      (SearchAddresses ⟨0, 10, "Bak", ""⟩ twoHitsWorld).1 ∧
    (SearchHardware ⟨0, 10, "n5"⟩ none twoHitsWorld).1 =
      (SearchNodes ⟨0, 10, "n5"⟩ none twoHitsWorld).1 :=
  total_is_hits_total_value twoHitsWorld _ _ _ 2 rfl rfl rfl (by decide) rfl (by decide) rfl
    (by decide) ⟨0, 10, "Bak", ""⟩ ⟨0, 10, "n5"⟩ none none

/-- C5: when a decoded engine response has a hit whose identifier is not a valid
integer, wherever it sits in the hit list, each of `SearchAddresses`,
`SearchNodes` and `SearchHardware` fails with an error and returns no
identifiers and a total of 0. -/
theorem invalid_identifier_fails (w : World) (r : SearchResponse)
    (hnet : w.net w.sent.length = none)
    (hdec : decodeSearchResponse "total" (w.reply w.sent.length).Body = some r)
    (hbad : ∃ h ∈ r.Hits, Atoi h.ID = none)
    (sa : SearchAddress) (s : Search) (nf : Option SearchNodeFilter)
    (hf : Option SearchHardwareFilter) :
    ∃ bad, Atoi bad = none ∧
      (SearchAddresses sa w).1 = { ids := [], total := 0, err := some (Err.invalidId bad) } ∧
      (SearchNodes s nf w).1 = { ids := [], total := 0, err := some (Err.invalidId bad) } ∧
      (SearchHardware s hf w).1 = { ids := [], total := 0, err := some (Err.invalidId bad) } := by
  rw [SearchAddresses_delivered sa w hnet, SearchNodes_delivered s nf w hnet,
    SearchHardware_delivered s hf w hnet]
  obtain ⟨bad, hA, h⟩ := extractResult_invalid _ r hdec hbad
  exact ⟨bad, hA, h, h, h⟩

/-- Witness of C5: the identifier `12a` after the valid identifier `12`. -/
theorem invalid_identifier_fails_witness :
    ∃ bad, Atoi bad = none ∧
      (SearchAddresses ⟨0, 10, "Bak", "12"⟩ badHitWorld).1 =
        { ids := [], total := 0, err := some (Err.invalidId bad) } ∧
      (SearchNodes ⟨0, 10, "n5"⟩ none badHitWorld).1 =
        { ids := [], total := 0, err := some (Err.invalidId bad) } ∧
      (SearchHardware ⟨0, 10, "n5"⟩ none badHitWorld).1 =
        { ids := [], total := 0, err := some (Err.invalidId bad) } :=
  invalid_identifier_fails badHitWorld
    { Total := 2, Hits := [{ ID := "12" }, { ID := "12a" }] } rfl (by decide)
    ⟨{ ID := "12a" }, by decide, by decide⟩
    ⟨0, 10, "Bak", "12"⟩ ⟨0, 10, "n5"⟩ none none

/-! ## Claim C1: what the `is_delete = false` filter lets through -/

theorem passes_mustNotExists (nv : Option Bool) (doc : List (String × JSON)) (field : String) :
    passesFilter nv doc [mustNotExists field] = true ↔ indexedValue nv doc field = none := by
  simp only [passesFilter, mustNotExists, clauseMatches, leafMatches, List.all_cons,
    List.all_nil, Bool.and_true, Option.map_some', beq_iff_eq, Option.some.injEq,
    Bool.not_eq_true']
  cases indexedValue nv doc field <;> simp

theorem buildNodeFilter_delete_only (p : Bool) :
    buildNodeFilter (some ⟨true, false, false, p⟩) = [mustNotExists "is_delete"] := rfl

theorem buildHardwareFilter_delete_only :
    buildHardwareFilter (some ⟨true, false⟩) = [mustNotExists "is_delete"] := rfl

/-- C1 as stated fails: a document with an explicit `is_delete = false` does not
pass the clauses built for `use_is_delete = true, is_delete = false`, neither
for nodes nor for hardware, with or without the mapping's `null_value`. -/
theorem explicit_false_does_not_pass :
    passesFilter (some false) [("id", JSON.num 5), ("is_delete", JSON.bool false)]
        (buildNodeFilter (some ⟨true, false, false, false⟩)) = false ∧
    passesFilter (some false) [("id", JSON.num 5), ("is_delete", JSON.bool false)]
        (buildHardwareFilter (some ⟨true, false⟩)) = false ∧
    passesFilter none [("id", JSON.num 5), ("is_delete", JSON.bool false)]
        (buildNodeFilter (some ⟨true, false, false, false⟩)) = false ∧
    passesFilter none [("id", JSON.num 5), ("is_delete", JSON.bool false)]
        (buildHardwareFilter (some ⟨true, false⟩)) = false := by
  decide

/-- C1, amended: a stored document passes the clauses that `buildNodeFilter` and
`buildHardwareFilter` build for `use_is_delete = true, is_delete = false` if and
only if the engine has no indexed value of `is_delete` for it.  In particular a
document lacking the field passes, and a document whose `is_delete` is a
boolean, true or false, does not pass. -/
theorem delete_false_filter_passes_iff_no_value (nv : Option Bool)
    (doc : List (String × JSON)) (p : Bool) :
    (passesFilter nv doc (buildNodeFilter (some ⟨true, false, false, p⟩)) = true ↔
      indexedValue nv doc "is_delete" = none) ∧
    (passesFilter nv doc (buildHardwareFilter (some ⟨true, false⟩)) = true ↔
      indexedValue nv doc "is_delete" = none) ∧
    (lookup "is_delete" doc = none →
      passesFilter nv doc (buildNodeFilter (some ⟨true, false, false, p⟩)) = true ∧
      passesFilter nv doc (buildHardwareFilter (some ⟨true, false⟩)) = true) ∧
    (∀ b : Bool, lookup "is_delete" doc = some (JSON.bool b) →
      passesFilter nv doc (buildNodeFilter (some ⟨true, false, false, p⟩)) = false ∧
      passesFilter nv doc (buildHardwareFilter (some ⟨true, false⟩)) = false) := by
  rw [buildNodeFilter_delete_only, buildHardwareFilter_delete_only]
  have hiff := passes_mustNotExists nv doc "is_delete"
  refine ⟨hiff, hiff, ?_, ?_⟩
  · intro h
    have hv : indexedValue nv doc "is_delete" = none := by simp only [indexedValue, h]
    exact ⟨hiff.mpr hv, hiff.mpr hv⟩
  · intro b h
    have hv : indexedValue nv doc "is_delete" ≠ none := by
      simp only [indexedValue, h]; exact fun h => by cases h
    have hf : passesFilter nv doc [mustNotExists "is_delete"] = false := by
      cases hp : passesFilter nv doc [mustNotExists "is_delete"] with
      | false => rfl
      | true => exact absurd (hiff.mp hp) hv
    exact ⟨hf, hf⟩

/-! ## Lemmas: the bulk buffer -/

theorem perform_sent (w : World) (r : Request) :
    (w.perform r).2.sent = w.sent ++ [r] := by
  cases hn : w.net w.sent.length with
  | some msg => simp only [World.perform, hn]
  | none =>
    cases r with
    | IndicesCreate index body =>
      simp only [World.perform, hn, World.handle]
      split
      · rfl
      · split <;> rfl
    | _ => simp only [World.perform, hn, World.handle]

theorem perform_bulk (w : World) (index body : String) :
    w.perform (Request.Bulk index body) =
      ((match w.net w.sent.length with
        | some msg => Except.error (Err.transport msg)
        | none => Except.ok (w.reply w.sent.length)),
       { w with sent := w.sent ++ [Request.Bulk index body] }) := by
  cases hn : w.net w.sent.length with
  | some msg => simp only [World.perform, hn]
  | none => simp only [World.perform, hn, World.handle]

theorem perform_index (w : World) (index id body : String) :
    w.perform (Request.Index index id body) =
      ((match w.net w.sent.length with
        | some msg => Except.error (Err.transport msg)
        | none => Except.ok (w.reply w.sent.length)),
       { w with sent := w.sent ++ [Request.Index index id body] }) := by
  cases hn : w.net w.sent.length with
  | some msg => simp only [World.perform, hn]
  | none => simp only [World.perform, hn, World.handle]

theorem bulkBuffer_ok {α : Type} (prepare : α → α) (idOf : α → Int)
    (marshal : α → Except Err String) (items : List α) :
    ∀ (docs : List String) (buf : String),
      items.map (fun x => marshal (prepare x)) = docs.map Except.ok →
      bulkBuffer prepare idOf marshal items buf =
        Except.ok (buf ++ joinLines (bulkLines (items.map idOf) docs)) := by
  induction items with
  | nil =>
    intro docs buf h
    cases docs with
    | nil => simp [bulkBuffer, bulkLines, joinLines]
    | cons d ds => simp at h
  | cons x rest ih =>
    intro docs buf h
    cases docs with
    | nil => simp at h
    | cons d ds =>
      simp only [List.map_cons, List.cons.injEq] at h
      obtain ⟨hx, hrest⟩ := h
      simp only [bulkBuffer, hx, List.map_cons, bulkLines, joinLines]
      rw [ih ds _ hrest]
      simp only [actionLine, String.append_assoc]

theorem bulkWrite_sent {α : Type} (index : String) (prepare : α → α) (idOf : α → Int)
    (marshal : α → Except Err String) (items : List α) (w : World) (buf : String)
    (hbuf : bulkBuffer prepare idOf marshal items "" = Except.ok buf) :
    (bulkWrite index prepare idOf marshal items w).2.sent =
        w.sent ++ [Request.Bulk index buf] ∧
    (bulkWrite index prepare idOf marshal items w).2.indices = w.indices := by
  simp only [bulkWrite, hbuf, perform_bulk]
  cases w.net w.sent.length with
  | some msg => exact ⟨rfl, rfl⟩
  | none =>
    simp only
    cases decodeBulkResponse (w.reply w.sent.length).Body with
    | none => exact ⟨rfl, rfl⟩
    | some b => cases b <;> exact ⟨rfl, rfl⟩

theorem bulkWrite_payload {α : Type} (index : String) (prepare : α → α) (idOf : α → Int)
    (marshal : α → Except Err String) (items : List α) (docs : List String) (w : World)
    (hdocs : items.map (fun x => marshal (prepare x)) = docs.map Except.ok) :
    (bulkWrite index prepare idOf marshal items w).2.sent =
      w.sent ++ [Request.Bulk index (joinLines (bulkLines (items.map idOf) docs))] := by
  have hbuf := bulkBuffer_ok prepare idOf marshal items docs "" hdocs
  rw [String.empty_append] at hbuf
  exact (bulkWrite_sent index prepare idOf marshal items w _ hbuf).1

theorem indexOne_sent {α : Type} (index : String) (prepare : α → α) (idOf : α → Int)
    (marshal : α → Except Err String) (item : α) (w : World) (data : String)
    (h : marshal (prepare item) = Except.ok data) :
    (indexOne index prepare idOf marshal item w).2.sent =
      w.sent ++ [Request.Index index (Sprint (idOf item)) data] := by
  simp only [indexOne, h, perform_index]
  cases w.net w.sent.length <;> rfl

/-! ## The flag assignments of the writers -/

theorem normalizeNode_eq (n : Node) : normalizeNode n = n := rfl

theorem normalizeHardware_eq (h : Hardware) : normalizeHardware h = h := rfl

/-- The four writers of nodes and hardware serialise the entity as they
received it: the flag assignments store back the values read, so what the
request carries is what the serialiser gives for the unchanged entity. -/
theorem writers_serialise_entity_unchanged (w : World)
    (marshalN : Node → Except Err String) (marshalH : Hardware → Except Err String) :
    (∀ node data, marshalN node = Except.ok data →
      (IndexNode marshalN node w).2.sent =
        w.sent ++ [Request.Index "nodes" (Sprint node.Id) data]) ∧
    (∀ hardware data, marshalH hardware = Except.ok data →
      (IndexHardwareSingle marshalH hardware w).2.sent =
        w.sent ++ [Request.Index "hardware" (Sprint hardware.Id) data]) ∧
    (∀ nodes docs, nodes.map marshalN = docs.map Except.ok →
      (IndexNodes marshalN nodes w).2.sent =
        w.sent ++ [Request.Bulk "nodes"
          (joinLines (bulkLines (nodes.map fun n => n.Id) docs))]) ∧
    (∀ hs docs, hs.map marshalH = docs.map Except.ok →
      (IndexHardware marshalH hs w).2.sent =
        w.sent ++ [Request.Bulk "hardware"
          (joinLines (bulkLines (hs.map fun h => h.Id) docs))]) :=
  ⟨fun node data h => indexOne_sent "nodes" normalizeNode _ marshalN node w data h,
   fun hardware data h =>
     indexOne_sent "hardware" normalizeHardware _ marshalH hardware w data h,
   fun nodes docs h => bulkWrite_payload "nodes" normalizeNode _ marshalN nodes docs w h,
   fun hs docs h => bulkWrite_payload "hardware" normalizeHardware _ marshalH hs docs w h⟩

/-! ## Claim C6: the bulk payload -/

set_option maxRecDepth 8000 in
/-- The payload of the witness, written out: the two addresses with keys 1 and
3 give four lines, each action line before its document. -/
theorem bulk_payload_of_two_addresses :
    (IndexAddresses marshalAddress [sampleAddress 1, sampleAddress 3] emptyWorld).2.sent =
      [Request.Bulk "addresses"
        ("\x7b \"index\" : \x7b \"_id\" : \"1\" \x7d \x7d\n" ++
         "\x7b\"house_id\":1,\"street_name\":\"Baker\",\"street_type\":\"st\"," ++
         "\"house_name\":\"221B\",\"house_type\":\"h\"\x7d\n" ++
         "\x7b \"index\" : \x7b \"_id\" : \"3\" \x7d \x7d\n" ++
         "\x7b\"house_id\":3,\"street_name\":\"Baker\",\"street_type\":\"st\"," ++
         "\"house_name\":\"221B\",\"house_type\":\"h\"\x7d\n")] ∧
    IsIndexAction "\x7b \"index\" : \x7b \"_id\" : \"1\" \x7d \x7d" 1 ∧
    IsIndexAction "\x7b\"index\":\x7b\"_id\":\"3\"\x7d\x7d" 3 ∧
    ¬ IsIndexAction "\x7b \"index\" : \x7b \"_id\" : \"3\" \x7d \x7d" 1 ∧
    ¬ IsIndexAction "\x7b \"delete\" : \x7b \"_id\" : \"1\" \x7d \x7d" 1 ∧
    ¬ IsIndexAction "" 1 := by
  refine ⟨rfl, by decide, by decide, by decide, by decide, by decide⟩

/-! ## Claim C7: a batch with an entity that does not serialise -/

theorem decodeBulkFields_skip (kvs : List (String × JSON)) :
    ∀ acc, (kvs.filter fun p => fieldMatches "errors" p.1) = [] →
      decodeBulkFields kvs acc = acc := by
  induction kvs with
  | nil => intro acc _; rfl
  | cons p rest ih =>
    obtain ⟨k, x⟩ := p
    intro acc h
    obtain ⟨b, e⟩ := acc
    by_cases hm : fieldMatches "errors" k = true
    · simp [List.filter, hm] at h
    · simp only [Bool.not_eq_true] at hm
      simp only [List.filter, hm] at h
      simp only [decodeBulkFields, hm, Bool.false_eq_true, if_false]
      exact ih _ h

theorem decodeBulkFields_unique (v : JSON) (kvs : List (String × JSON)) :
    ∀ (b e : Bool), lookup "errors" kvs = some v → Unambiguous "errors" kvs →
      decodeBulkFields kvs (b, e) = ((decodeBool b v).1, e || (decodeBool b v).2) := by
  induction kvs with
  | nil => intro b e h; simp [lookup] at h
  | cons p rest ih =>
    obtain ⟨k, x⟩ := p
    intro b e hl hu
    by_cases hm : fieldMatches "errors" k = true
    · obtain ⟨hx, hnil⟩ := unambiguous_head "errors" k x v rest hm hl hu
      subst hx
      simp only [decodeBulkFields, hm, if_true]
      exact decodeBulkFields_skip rest _ hnil
    · simp only [Bool.not_eq_true] at hm
      obtain ⟨hl2, hu2⟩ := unambiguous_tail "errors" k x v rest hm hl hu
      simp only [decodeBulkFields, hm, Bool.false_eq_true, if_false]
      exact ih b e hl2 hu2

/-- A response body without an `errors` member decodes with the flag false. -/
theorem decodeBulkResponse_missing (kvs : List (String × JSON))
    (h : (kvs.filter fun p => fieldMatches "errors" p.1) = []) :
    decodeBulkResponse (some (JSON.obj kvs)) = some false := by
  simp only [decodeBulkResponse, decodeBulkFields_skip kvs _ h]

/-- A response body with one boolean `errors` member decodes to its value. -/
theorem decodeBulkResponse_flag (kvs : List (String × JSON)) (b : Bool)
    (hl : lookup "errors" kvs = some (JSON.bool b)) (hu : Unambiguous "errors" kvs) :
    decodeBulkResponse (some (JSON.obj kvs)) = some b := by
  simp only [decodeBulkResponse, decodeBulkFields_unique _ kvs _ _ hl hu, decodeBool,
    Bool.or_false]

theorem bulkWrite_result {α : Type} (index : String) (prepare : α → α) (idOf : α → Int)
    (marshal : α → Except Err String) (items : List α) (w : World) (buf : String)
    (hbuf : bulkBuffer prepare idOf marshal items "" = Except.ok buf) :
    (bulkWrite index prepare idOf marshal items w).1 =
      match w.net w.sent.length with
      | some msg => some (Err.transport msg)
      | none =>
        match decodeBulkResponse (w.reply w.sent.length).Body with
        | none => some Err.decode
        | some flag => if flag then some Err.bulkErrors else none := by
  simp only [bulkWrite, hbuf, perform_bulk]
  cases w.net w.sent.length with
  | some msg => rfl
  | none =>
    simp only
    cases decodeBulkResponse (w.reply w.sent.length).Body with
    | none => rfl
    | some b => cases b <;> rfl

theorem bulkWrite_delivered {α : Type} (index : String) (prepare : α → α) (idOf : α → Int)
    (marshal : α → Except Err String) (items : List α) (docs : List String) (w : World)
    (flag : Bool)
    (hdocs : items.map (fun x => marshal (prepare x)) = docs.map Except.ok)
    (hnet : w.net w.sent.length = none)
    (hdec : decodeBulkResponse (w.reply w.sent.length).Body = some flag) :
    (bulkWrite index prepare idOf marshal items w).1 =
      if flag then some Err.bulkErrors else none := by
  rw [bulkWrite_result index prepare idOf marshal items w _
    (bulkBuffer_ok prepare idOf marshal items docs "" hdocs), hnet, hdec]

/-- C8: for a bulk write whose entities serialise, whose request is transported
and whose response body decodes to the flag `flag`, the call reports the batch
failure exactly when `flag` is true and succeeds when it is false.  The flag
of a decoded body is false when the body has no `errors` member, and is the
value of the `errors` member when the body has one boolean such member. -/
theorem bulk_failure_iff_errors_flag (w : World) (flag : Bool)
    (hnet : w.net w.sent.length = none)
    (hdec : decodeBulkResponse (w.reply w.sent.length).Body = some flag)
    (marshalA : Address → Except Err String) (addresses : List Address) (docsA : List String)
    (hA : addresses.map marshalA = docsA.map Except.ok)
    (marshalN : Node → Except Err String) (nodes : List Node) (docsN : List String)
    (hN : nodes.map (fun n => marshalN (normalizeNode n)) = docsN.map Except.ok)
    (marshalH : Hardware → Except Err String) (hs : List Hardware) (docsH : List String)
    (hH : hs.map (fun h => marshalH (normalizeHardware h)) = docsH.map Except.ok) :
    (IndexAddresses marshalA addresses w).1 = (if flag then some Err.bulkErrors else none) ∧
    (IndexNodes marshalN nodes w).1 = (if flag then some Err.bulkErrors else none) ∧
    (IndexHardware marshalH hs w).1 = (if flag then some Err.bulkErrors else none) ∧
    (∀ kvs : List (String × JSON), (kvs.filter fun p => fieldMatches "errors" p.1) = [] →
      decodeBulkResponse (some (JSON.obj kvs)) = some false) ∧
    (∀ (kvs : List (String × JSON)) (b : Bool), lookup "errors" kvs = some (JSON.bool b) →
      Unambiguous "errors" kvs → decodeBulkResponse (some (JSON.obj kvs)) = some b) :=
  ⟨bulkWrite_delivered "addresses" id _ marshalA addresses docsA w flag hA hnet hdec,
    bulkWrite_delivered "nodes" normalizeNode _ marshalN nodes docsN w flag hN hnet hdec,
    bulkWrite_delivered "hardware" normalizeHardware _ marshalH hs docsH w flag hH hnet hdec,
    decodeBulkResponse_missing, decodeBulkResponse_flag⟩

/-- Witness of C8: a response with `errors: true` fails each bulk write. -/
theorem bulk_failure_iff_errors_flag_witness :
    (IndexAddresses marshalAddress [sampleAddress 1] bulkErrorsWorld).1 =
      some Err.bulkErrors ∧
    (IndexNodes marshalNode [sampleNode] bulkErrorsWorld).1 = some Err.bulkErrors ∧
    (IndexHardware marshalHardware [sampleHardware] bulkErrorsWorld).1 =
      some Err.bulkErrors :=
  have h := bulk_failure_iff_errors_flag bulkErrorsWorld true rfl (by decide)
    marshalAddress [sampleAddress 1] [render (addressDocument (sampleAddress 1))] rfl
    marshalNode [sampleNode] [render (nodeDocument (normalizeNode sampleNode))] rfl
    marshalHardware [sampleHardware]
    [render (hardwareDocument (normalizeHardware sampleHardware))] rfl
  ⟨h.1, h.2.1, h.2.2.1⟩

/-- C9 as stated fails: on an empty list `IndexAddresses`, `IndexNodes` and
`IndexHardware` do perform an engine request, a bulk request with an empty
body; and when the transport is down they return its error. -/
theorem empty_batch_still_sends_request :
    (IndexAddresses marshalAddress [] emptyWorld).2.sent = [Request.Bulk "addresses" ""] ∧
    (IndexNodes marshalNode [] emptyWorld).2.sent = [Request.Bulk "nodes" ""] ∧
    (IndexHardware marshalHardware [] emptyWorld).2.sent = [Request.Bulk "hardware" ""] ∧
    (IndexAddresses marshalAddress [] downWorld).1 =
      some (Err.transport "connection refused") :=
  ⟨rfl, rfl, rfl, rfl⟩

theorem bulkWrite_empty {α : Type} (index : String) (prepare : α → α) (idOf : α → Int)
    (marshal : α → Except Err String) (w : World) :
    (bulkWrite index prepare idOf marshal [] w).2.sent = w.sent ++ [Request.Bulk index ""] ∧
    (bulkWrite index prepare idOf marshal [] w).2.indices = w.indices ∧
    ((bulkWrite index prepare idOf marshal [] w).1 = none ↔
      w.net w.sent.length = none ∧
      decodeBulkResponse (w.reply w.sent.length).Body = some false) := by
  have hbuf : bulkBuffer prepare idOf marshal [] "" = Except.ok "" := rfl
  obtain ⟨h1, h2⟩ := bulkWrite_sent index prepare idOf marshal [] w "" hbuf
  refine ⟨h1, h2, ?_⟩
  rw [bulkWrite_result index prepare idOf marshal [] w "" hbuf]
  cases w.net w.sent.length with
  | some msg => simp
  | none =>
    cases decodeBulkResponse (w.reply w.sent.length).Body with
    | none => simp
    | some b => cases b <;> simp

/-- C9, amended: on an empty list `IndexAddresses`, `IndexNodes` and
`IndexHardware` send exactly one bulk request, with an empty body, and leave
the index registry unchanged; they return no error exactly when that request
is transported and its response decodes with the `errors` flag false. -/
theorem empty_batch_sends_empty_bulk (w : World)
    (marshalA : Address → Except Err String) (marshalN : Node → Except Err String)
    (marshalH : Hardware → Except Err String) :
    ((IndexAddresses marshalA [] w).2.sent = w.sent ++ [Request.Bulk "addresses" ""] ∧
      (IndexAddresses marshalA [] w).2.indices = w.indices ∧
      ((IndexAddresses marshalA [] w).1 = none ↔
        w.net w.sent.length = none ∧
        decodeBulkResponse (w.reply w.sent.length).Body = some false)) ∧
    ((IndexNodes marshalN [] w).2.sent = w.sent ++ [Request.Bulk "nodes" ""] ∧
      (IndexNodes marshalN [] w).2.indices = w.indices ∧
      ((IndexNodes marshalN [] w).1 = none ↔
        w.net w.sent.length = none ∧
        decodeBulkResponse (w.reply w.sent.length).Body = some false)) ∧
    ((IndexHardware marshalH [] w).2.sent = w.sent ++ [Request.Bulk "hardware" ""] ∧
      (IndexHardware marshalH [] w).2.indices = w.indices ∧
      ((IndexHardware marshalH [] w).1 = none ↔
        w.net w.sent.length = none ∧
        decodeBulkResponse (w.reply w.sent.length).Body = some false)) :=
  ⟨bulkWrite_empty "addresses" id _ marshalA w,
    bulkWrite_empty "nodes" normalizeNode _ marshalN w,
    bulkWrite_empty "hardware" normalizeHardware _ marshalH w⟩

/-! ## Claim C10: provisioning twice -/

theorem perform_exists (w : World) (index : String) (hnet : w.net w.sent.length = none) :
    w.perform (Request.IndicesExists index) =
      (Except.ok { StatusCode := if w.hasIndex index then 200 else 404, Body := none },
       { w with sent := w.sent ++ [Request.IndicesExists index] }) := by
  simp only [World.perform, hnet, World.handle, World.hasIndex]

theorem perform_create (w : World) (index : String) (body : JSON)
    (hnet : w.net w.sent.length = none) (habs : w.hasIndex index = false)
    (hacc : w.accepts index body = true) :
    w.perform (Request.IndicesCreate index body) =
      (Except.ok { StatusCode := 200, Body := none },
       { w with sent := w.sent ++ [Request.IndicesCreate index body],
                indices := w.indices ++ [(index, body)] }) := by
  have h1 : ({ w with sent := w.sent ++ [Request.IndicesCreate index body] } : World).hasIndex
      index = false := habs
  simp only [World.perform, hnet, World.handle, h1, hacc, Bool.false_eq_true, if_false, if_true]

theorem ensureIndex_present (index : String) (settings : JSON) (w : World)
    (hnet : w.net w.sent.length = none) (hp : w.hasIndex index = true) :
    ensureIndex index settings w =
      (none, { w with sent := w.sent ++ [Request.IndicesExists index] }) := by
  simp only [ensureIndex, perform_exists w index hnet, hp, if_true]

theorem ensureIndex_absent (index : String) (settings : JSON) (w : World)
    (hnet0 : w.net w.sent.length = none) (hnet1 : w.net (w.sent.length + 1) = none)
    (habs : w.hasIndex index = false) (hacc : w.accepts index settings = true) :
    ensureIndex index settings w =
      (none, { w with
        sent := w.sent ++ [Request.IndicesExists index] ++
          [Request.IndicesCreate index settings],
        indices := w.indices ++ [(index, settings)] }) := by
  have hnet1' : ({ w with sent := w.sent ++ [Request.IndicesExists index] } : World).net
      ({ w with sent := w.sent ++ [Request.IndicesExists index] } : World).sent.length =
      none := by
    simp only [List.length_append, List.length_singleton]
    exact hnet1
  simp only [ensureIndex, perform_exists w index hnet0, habs, Bool.false_eq_true, if_false]
  rw [perform_create _ index settings hnet1' habs hacc]
  simp

theorem hasIndex_false_iff (w : World) (name : String) :
    w.hasIndex name = false ↔ ∀ p ∈ w.indices, p.1 ≠ name := by
  simp [World.hasIndex]

theorem lookup_append_absent (name : String) (v : JSON) (l : List (String × JSON))
    (h : ∀ p ∈ l, p.1 ≠ name) : lookup name (l ++ [(name, v)]) = some v := by
  induction l with
  | nil => simp [lookup]
  | cons p rest ih =>
    obtain ⟨k, x⟩ := p
    have hk : k ≠ name := h (k, x) (List.mem_cons_self _ _)
    simp only [List.cons_append, lookup, hk, if_false]
    exact ih fun q hq => h q (List.mem_cons_of_mem _ hq)

theorem filter_name_absent (name : String) (l : List (String × JSON))
    (h : ∀ p ∈ l, p.1 ≠ name) : (l.filter fun p => decide (p.1 = name)) = [] := by
  rw [List.filter_eq_nil_iff]
  intro p hp
  simpa using h p hp

theorem filter_name_present (name : String) (l : List (String × JSON))
    (h : (l.any fun p => decide (p.1 = name)) = true) :
    0 < (l.filter fun p => decide (p.1 = name)).length := by
  rw [List.any_eq_true] at h
  obtain ⟨p, hp, hpn⟩ := h
  exact List.length_pos_of_mem (List.mem_filter.mpr ⟨hp, hpn⟩)

/-- Two provisioning calls in a row, on a reliable transport and an accepting
engine. -/
theorem ensureIndex_twice (index : String) (settings : JSON) (w : World)
    (hnet : ∀ n, w.net n = none) (hacc : w.accepts index settings = true)
    (hwf : w.indexCount index ≤ 1) :
    (ensureIndex index settings w).1 = none ∧
    (ensureIndex index settings (ensureIndex index settings w).2).1 = none ∧
    (ensureIndex index settings (ensureIndex index settings w).2).2.indexCount index = 1 ∧
    (ensureIndex index settings (ensureIndex index settings w).2).2.mappingOf index =
      (if w.hasIndex index then w.mappingOf index else some settings) ∧
    (ensureIndex index settings (ensureIndex index settings w).2).2.indices =
      (ensureIndex index settings w).2.indices ∧
    (ensureIndex index settings (ensureIndex index settings w).2).2.sent =
      (ensureIndex index settings w).2.sent ++ [Request.IndicesExists index] := by
  by_cases hp : w.hasIndex index = true
  · have h1 := ensureIndex_present index settings w (hnet _) hp
    have h2 := ensureIndex_present index settings
      { w with sent := w.sent ++ [Request.IndicesExists index] } (hnet _) hp
    rw [h1]
    dsimp only
    rw [h2]
    refine ⟨rfl, rfl, ?_, ?_, rfl, rfl⟩
    · have := filter_name_present index w.indices hp
      unfold World.indexCount at hwf ⊢
      dsimp only
      omega
    · simp only [hp, if_true]; rfl
  · simp only [Bool.not_eq_true] at hp
    have habs := (hasIndex_false_iff w index).mp hp
    have h1 := ensureIndex_absent index settings w (hnet _) (hnet _) hp hacc
    have hp2 : ({ w with
        sent := w.sent ++ [Request.IndicesExists index] ++
          [Request.IndicesCreate index settings],
        indices := w.indices ++ [(index, settings)] } : World).hasIndex index = true := by
      simp [World.hasIndex]
    have h2 := ensureIndex_present index settings
      { w with
        sent := w.sent ++ [Request.IndicesExists index] ++
          [Request.IndicesCreate index settings],
        indices := w.indices ++ [(index, settings)] } (hnet _) hp2
    rw [h1]
    dsimp only
    rw [h2]
    refine ⟨rfl, rfl, ?_, ?_, rfl, rfl⟩
    · simp only [World.indexCount, List.filter_append, filter_name_absent index w.indices habs]
      simp
    · simp only [hp, Bool.false_eq_true, if_false, World.mappingOf]
      exact lookup_append_absent index settings w.indices habs

theorem EnsureIndex_eq (k : Kind) (w : World) :
    EnsureIndex k w = ensureIndex k.index k.settings w := by
  cases k <;> rfl

/-- C10 as stated fails: in an engine whose `nodes` index already exists with
another create body, two calls of `EnsureIndexNode` return without error and
leave that index with the body it had, not with the specified mapping. -/
theorem stale_index_keeps_its_mapping :
    (EnsureIndexNode staleWorld).1 = none ∧
    (EnsureIndexNode (EnsureIndexNode staleWorld).2).1 = none ∧
    (EnsureIndexNode (EnsureIndexNode staleWorld).2).2.mappingOf "nodes" ≠
      some nodeSettings := by
  refine ⟨rfl, rfl, ?_⟩
  have h : (EnsureIndexNode (EnsureIndexNode staleWorld).2).2.mappingOf "nodes" =
      some (JSON.obj []) := rfl
  rw [h]
  simp [nodeSettings]

/-- C10, amended: for every kind and every engine state that registers the
kind's index at most once, when the requests are transported and the engine
accepts the kind's create body, two provisioning calls in a row both succeed
and leave exactly one index of the kind, with the specified mapping if the
index was absent before the first call and with the mapping it already had
otherwise; the second call sends only the existence check, no create request,
and leaves the index registry as it was after the first call. -/
theorem provisioning_twice (k : Kind) (w : World)
    (hnet : ∀ n, w.net n = none) (hacc : w.accepts k.index k.settings = true)
    (hwf : w.indexCount k.index ≤ 1) :
    (EnsureIndex k w).1 = none ∧
    (EnsureIndex k (EnsureIndex k w).2).1 = none ∧
    (EnsureIndex k (EnsureIndex k w).2).2.indexCount k.index = 1 ∧
    (EnsureIndex k (EnsureIndex k w).2).2.mappingOf k.index =
      (if w.hasIndex k.index then w.mappingOf k.index else some k.settings) ∧
    (EnsureIndex k (EnsureIndex k w).2).2.indices = (EnsureIndex k w).2.indices ∧
    (EnsureIndex k (EnsureIndex k w).2).2.sent =
      (EnsureIndex k w).2.sent ++ [Request.IndicesExists k.index] := by
  simp only [EnsureIndex_eq]
  exact ensureIndex_twice k.index k.settings w hnet hacc hwf

/-- Witness of C10, amended: the node index on the empty engine. -/
theorem provisioning_twice_witness :
    (EnsureIndex Kind.node emptyWorld).1 = none ∧
    (EnsureIndex Kind.node (EnsureIndex Kind.node emptyWorld).2).1 = none ∧
    (EnsureIndex Kind.node (EnsureIndex Kind.node emptyWorld).2).2.indexCount "nodes" = 1 ∧
    (EnsureIndex Kind.node (EnsureIndex Kind.node emptyWorld).2).2.mappingOf "nodes" =
      some nodeSettings ∧
    (EnsureIndex Kind.node (EnsureIndex Kind.node emptyWorld).2).2.indices =
      (EnsureIndex Kind.node emptyWorld).2.indices ∧
    (EnsureIndex Kind.node (EnsureIndex Kind.node emptyWorld).2).2.sent =
      (EnsureIndex Kind.node emptyWorld).2.sent ++ [Request.IndicesExists "nodes"] :=
  provisioning_twice Kind.node emptyWorld (fun _ => rfl) rfl (by decide)

/-! ## Claim C11: a create request the engine rejects -/

theorem perform_outcome (w : World) (r : Request) :
    (∃ msg, w.net w.sent.length = some msg ∧
      (w.perform r).1 = Except.error (Err.transport msg)) ∨
    (w.net w.sent.length = none ∧ ∃ res, (w.perform r).1 = Except.ok res) := by
  cases hn : w.net w.sent.length with
  | some msg => exact Or.inl ⟨msg, rfl, by simp only [World.perform, hn]⟩
  | none =>
    refine Or.inr ⟨rfl, ?_⟩
    simp only [World.perform, hn]
    exact ⟨_, rfl⟩

theorem perform_create_rejected (w : World) (index : String) (body : JSON)
    (hnet : w.net w.sent.length = none) (habs : w.hasIndex index = false)
    (hrej : w.accepts index body = false) :
    w.perform (Request.IndicesCreate index body) =
      (Except.ok { StatusCode := 400, Body := none },
       { w with sent := w.sent ++ [Request.IndicesCreate index body] }) := by
  have h1 : ({ w with sent := w.sent ++ [Request.IndicesCreate index body] } : World).hasIndex
      index = false := habs
  simp only [World.perform, hnet, World.handle, h1, hrej, Bool.false_eq_true, if_false]

theorem ensureIndex_rejected (index : String) (settings : JSON) (w : World)
    (hnet0 : w.net w.sent.length = none) (hnet1 : w.net (w.sent.length + 1) = none)
    (habs : w.hasIndex index = false) (hrej : w.accepts index settings = false) :
    ensureIndex index settings w =
      (none, { w with
        sent := w.sent ++ [Request.IndicesExists index] ++
          [Request.IndicesCreate index settings] }) := by
  have hnet1' : ({ w with sent := w.sent ++ [Request.IndicesExists index] } : World).net
      ({ w with sent := w.sent ++ [Request.IndicesExists index] } : World).sent.length =
      none := by
    simp only [List.length_append, List.length_singleton]
    exact hnet1
  simp only [ensureIndex, perform_exists w index hnet0, habs, Bool.false_eq_true, if_false]
  rw [perform_create_rejected _ index settings hnet1' habs hrej]
  simp

theorem ensureIndex_error_is_transport (index : String) (settings : JSON) (w : World)
    (e : Err) (h : (ensureIndex index settings w).1 = some e) :
    ∃ msg, e = Err.transport msg ∧
      (w.net w.sent.length = some msg ∨ w.net (w.sent.length + 1) = some msg) := by
  cases hn : w.net w.sent.length with
  | some msg =>
    simp only [ensureIndex, perform_fails w _ msg hn, Option.some.injEq] at h
    exact ⟨msg, h.symm, Or.inl rfl⟩
  | none =>
    by_cases hp : w.hasIndex index = true
    · rw [ensureIndex_present index settings w hn hp] at h
      cases h
    · simp only [Bool.not_eq_true] at hp
      cases hn1 : w.net (w.sent.length + 1) with
      | some msg =>
        have hnet1 : ({ w with sent := w.sent ++ [Request.IndicesExists index] } : World).net
            ({ w with sent := w.sent ++ [Request.IndicesExists index] } : World).sent.length =
            some msg := by
          simp only [List.length_append, List.length_singleton]
          exact hn1
        simp only [ensureIndex, perform_exists w index hn, hp, Bool.false_eq_true, if_false,
          perform_fails _ _ msg hnet1, Option.some.injEq] at h
        simp at h
        exact ⟨msg, h.symm, Or.inr rfl⟩
      | none =>
        cases hacc : w.accepts index settings with
        | true =>
          rw [ensureIndex_absent index settings w hn hn1 hp hacc] at h
          cases h
        | false =>
          rw [ensureIndex_rejected index settings w hn hn1 hp hacc] at h
          cases h

/-- C11 as stated fails: on an engine without the index that rejects the create
body in its response (status 400, no transport failure), each provisioning
method returns no error, and the index is still absent afterwards. -/
theorem rejected_create_returns_success :
    rejectingWorld.hasIndex "nodes" = false ∧
    (EnsureIndexNode rejectingWorld).1 = none ∧
    (EnsureIndexNode rejectingWorld).2.hasIndex "nodes" = false ∧
    (EnsureIndexNode rejectingWorld).2.sent =
      [Request.IndicesExists "nodes", Request.IndicesCreate "nodes" nodeSettings] ∧
    (EnsureIndexAddress rejectingWorld).1 = none ∧
    (EnsureIndexAddress rejectingWorld).2.hasIndex "addresses" = false ∧
    (EnsureIndexHardware rejectingWorld).1 = none ∧
    (EnsureIndexHardware rejectingWorld).2.hasIndex "hardware" = false :=
  ⟨rfl, rfl, rfl, rfl, rfl, rfl, rfl, rfl⟩

/-- C11, amended: whenever the index is absent and the engine rejects the create
request in its response, the provisioning method of every kind returns success
although the index was not created (it stays absent); the method returns an
error only when one of its two requests fails in transport, and the error is
that transport error. -/
theorem provisioner_reports_only_transport_errors (k : Kind) (w : World) :
    (w.net w.sent.length = none → w.net (w.sent.length + 1) = none →
      w.hasIndex k.index = false → w.accepts k.index k.settings = false →
      (EnsureIndex k w).1 = none ∧ (EnsureIndex k w).2.hasIndex k.index = false ∧
      (EnsureIndex k w).2.sent =
        w.sent ++ [Request.IndicesExists k.index] ++
          [Request.IndicesCreate k.index k.settings]) ∧
    (∀ e, (EnsureIndex k w).1 = some e →
      ∃ msg, e = Err.transport msg ∧
        (w.net w.sent.length = some msg ∨ w.net (w.sent.length + 1) = some msg)) := by
  rw [EnsureIndex_eq]
  refine ⟨?_, fun e h => ensureIndex_error_is_transport k.index k.settings w e h⟩
  intro h0 h1 habs hrej
  rw [ensureIndex_rejected k.index k.settings w h0 h1 habs hrej]
  exact ⟨rfl, habs, rfl⟩

/-! ## Claim C12: sub-fields of the free-text fields -/

/-- C12 as stated fails: the free-text field `name` of the node create body and
the free-text field `node_name` of the hardware create body have no `keyword`
sub-field; no free-text field of these two kinds has one. -/
theorem node_text_fields_lack_keyword :
    lookup "name" (textFields nodeSettings) = some fieldParams ∧
    hasKeywordSubField fieldParams = false ∧
    lookup "node_name" (textFields hardwareSettings) = some fieldParams ∧
    (textFields nodeSettings).any (fun p => hasKeywordSubField p.2) = false ∧
    (textFields hardwareSettings).any (fun p => hasKeywordSubField p.2) = false :=
  ⟨rfl, rfl, rfl, rfl, rfl⟩

/-- C12, amended: in the create body of each of the three kinds every free-text
field has an `edge` sub-field analysed with the edge-n-gram analyzer (the
lower-case filter followed by the `edge_ngram` filter); the `keyword` sub-field
of type `keyword` is there for the free-text fields of the address index
(`street_name`, `house_name`) and for no free-text field of the node and
hardware indices. -/
theorem text_fields_have_edge_subfield (k : Kind) :
    (textFields k.settings).all (fun p => hasEdgeSubField k.settings p.2) = true ∧
    (textFields k.settings).length ≠ 0 ∧
    (textFields addressSettings).map Prod.fst = ["street_name", "house_name"] ∧
    (textFields addressSettings).all (fun p => hasKeywordSubField p.2) = true ∧
    (textFields nodeSettings).any (fun p => hasKeywordSubField p.2) = false ∧
    (textFields hardwareSettings).any (fun p => hasKeywordSubField p.2) = false := by
  cases k <;> exact ⟨by decide, by decide, by decide, by decide, by decide, by decide⟩

/-! ## Claim C16: the filter builders -/

/-- C16: for every filter argument, an absent one included, `buildNodeFilter`
and `buildHardwareFilter` emit for a flag the clauses of the opt-in rule and
nothing else: no clause unless `use_X` is true, exactly the clause
`term: X = true` for an opted-in `X = true`, exactly the clause
`bool: must_not: exists: X` for an opted-in `X = false`; for nodes the
`is_delete` clauses precede the `is_passive` clauses and each flag depends on
its own two inputs only. -/
theorem filter_builders_follow_opt_in (nf : Option SearchNodeFilter)
    (hf : Option SearchHardwareFilter) :
    buildNodeFilter nf =
      flagClauses "is_delete" (SearchNodeFilter.GetUseIsDelete nf)
          (SearchNodeFilter.GetIsDelete nf) ++
        flagClauses "is_passive" (SearchNodeFilter.GetUseIsPassive nf)
          (SearchNodeFilter.GetIsPassive nf) ∧
    buildHardwareFilter hf =
      flagClauses "is_delete" (SearchHardwareFilter.GetUseIsDelete hf)
        (SearchHardwareFilter.GetIsDelete hf) ∧
    buildNodeFilter none = [] ∧ buildHardwareFilter none = [] ∧
    (∀ d p : Bool, buildNodeFilter (some ⟨false, d, false, p⟩) = []) ∧
    (∀ d : Bool, buildHardwareFilter (some ⟨false, d⟩) = []) := by
  refine ⟨?_, ?_, rfl, rfl, ?_, ?_⟩
  · cases nf with
    | none => rfl
    | some f =>
      obtain ⟨a, b, c, d⟩ := f
      cases a <;> cases b <;> cases c <;> cases d <;> rfl
  · cases hf with
    | none => rfl
    | some f =>
      obtain ⟨a, b⟩ := f
      cases a <;> cases b <;> rfl
  · intro d p; cases d <;> cases p <;> rfl
  · intro d; cases d <;> rfl

/-! ## Claim C17: the sort of the address search -/

theorem addressSearchQuery_sort (search : SearchAddress) :
    field "sort" (addressSearchQuery search) =
      some (JSON.arr [
        JSON.obj [("_score", JSON.obj [("order", JSON.str "desc")])],
        JSON.obj [("house_name.keyword", JSON.obj [("order", JSON.str "asc")])]]) := by
  unfold addressSearchQuery
  split <;> rfl

/-- C17: in both modes of the address search the `sort` member of the query body
is exactly relevance score descending, then `house_name.keyword` ascending;
under it, of two hits with the same relevance score the one with the
lexicographically smaller exact house name is returned first. -/
theorem address_sort_breaks_ties_by_house_name {σ : Type} [LinearOrder σ]
    (search : SearchAddress) (a b : ScoredHit σ)
    (hs : a.score = b.score) (hn : a.houseName < b.houseName) :
    field "sort" (addressSearchQuery search) =
      some (JSON.arr [
        JSON.obj [("_score", JSON.obj [("order", JSON.str "desc")])],
        JSON.obj [("house_name.keyword", JSON.obj [("order", JSON.str "asc")])]]) ∧
    returnedBefore (addressSearchQuery search) a b = some true ∧
    returnedBefore (addressSearchQuery search) b a = some false := by
  have hk : sortKeys [
        JSON.obj [("_score", JSON.obj [("order", JSON.str "desc")])],
        JSON.obj [("house_name.keyword", JSON.obj [("order", JSON.str "asc")])]] =
      some [SortKey.score true, SortKey.houseName false] := by decide
  have hne : a.houseName ≠ b.houseName := ne_of_lt hn
  have hnot : ¬ b.houseName < a.houseName := lt_asymm hn
  have hrb : ∀ x y : ScoredHit σ, returnedBefore (addressSearchQuery search) x y =
      some (compareHits [SortKey.score true, SortKey.houseName false] x y == Ordering.lt) := by
    intro x y
    unfold returnedBefore
    rw [addressSearchQuery_sort]
    dsimp only
    rw [hk]
    rfl
  refine ⟨addressSearchQuery_sort search, ?_, ?_⟩
  · rw [hrb]
    have hc : compareHits [SortKey.score true, SortKey.houseName false] a b = Ordering.lt := by
      unfold compareHits compareByKey
      rw [hs, if_neg (lt_irrefl _), if_pos rfl]
      dsimp only
      unfold compareHits compareByKey
      rw [if_pos hn]
    rw [hc]; rfl
  · rw [hrb]
    have hc : compareHits [SortKey.score true, SortKey.houseName false] b a = Ordering.gt := by
      unfold compareHits compareByKey
      rw [hs, if_neg (lt_irrefl _), if_pos rfl]
      dsimp only
      unfold compareHits compareByKey
      rw [if_neg hnot, if_neg hne.symm]
    rw [hc]; rfl

/-- Witness of C17: the house names `12` and `12A` at the same score, in the
mode with a house term. -/
theorem address_sort_breaks_ties_by_house_name_witness :
    returnedBefore (addressSearchQuery ⟨0, 10, "Bak", "12"⟩)
      ({ score := 3, houseName := "12" } : ScoredHit Int)
      { score := 3, houseName := "12A" } = some true :=
  (address_sort_breaks_ties_by_house_name ⟨0, 10, "Bak", "12"⟩
    ({ score := 3, houseName := "12" } : ScoredHit Int)
    { score := 3, houseName := "12A" } rfl
    (String.lt_iff_toList_lt.mpr (by decide))).2.1

/-! ## Claim C19: the fields the queries refer to -/

theorem referencedFields_address (sa : SearchAddress) :
    referencedFields (addressSearchQuery sa) =
      (if sa.HouseQuery = "" then
        ["street_name.edge", "street_name", "street_type_short_name", "house_name.keyword"]
      else
        ["street_name.edge", "house_name.edge", "house_name.keyword", "house_name.keyword",
         "house_name.keyword", "house_name.edge", "house_name.keyword"]) := by
  unfold addressSearchQuery
  split <;> rfl

theorem referencedFields_node (s : Search) (nf : Option SearchNodeFilter) :
    referencedFields (multiMatchQuery s nodeSearchFields (buildNodeFilter nf)) =
      nodeSearchFields ++
        ((if SearchNodeFilter.GetUseIsDelete nf then ["is_delete"] else []) ++
         (if SearchNodeFilter.GetUseIsPassive nf then ["is_passive"] else [])) := by
  cases nf with
  | none => rfl
  | some f =>
    obtain ⟨a, b, c, d⟩ := f
    cases a <;> cases b <;> cases c <;> cases d <;> rfl

theorem referencedFields_hardware (s : Search) (hf : Option SearchHardwareFilter) :
    referencedFields (multiMatchQuery s hardwareSearchFields (buildHardwareFilter hf)) =
      hardwareSearchFields ++
        (if SearchHardwareFilter.GetUseIsDelete hf then ["is_delete"] else []) := by
  cases hf with
  | none => rfl
  | some f =>
    obtain ⟨a, b⟩ := f
    cases a <;> cases b <;> rfl

/-- C19: for each kind, every field path the kind's search query refers to is
defined by the create body of the same kind, the paths ending in `.edge` as
sub-fields analysed with the edge-n-gram analyzer.  The paths of the node and
hardware `multi_match` lists, and `street_name.edge`, `house_name.edge` and
`house_name.keyword` of the address queries, are sub-fields of properties of
the create body; the queries refer to them. -/
theorem query_fields_are_mapped (sa : SearchAddress) (s : Search)
    (nf : Option SearchNodeFilter) (hf : Option SearchHardwareFilter) :
    (referencedFields (addressSearchQuery sa)).all (pathDefined addressSettings) = true ∧
    (referencedFields (multiMatchQuery s nodeSearchFields (buildNodeFilter nf))).all
      (pathDefined nodeSettings) = true ∧
    (referencedFields (multiMatchQuery s hardwareSearchFields (buildHardwareFilter hf))).all
      (pathDefined hardwareSettings) = true ∧
    nodeSearchFields.all
      (fun p => isSubFieldPath nodeSettings p && pathDefined nodeSettings p) = true ∧
    hardwareSearchFields.all
      (fun p => isSubFieldPath hardwareSettings p && pathDefined hardwareSettings p) = true ∧
    ["street_name.edge", "house_name.edge", "house_name.keyword"].all
      (fun p => isSubFieldPath addressSettings p && pathDefined addressSettings p) = true ∧
    (∀ p ∈ nodeSearchFields,
      p ∈ referencedFields (multiMatchQuery s nodeSearchFields (buildNodeFilter nf))) ∧
    (∀ p ∈ hardwareSearchFields,
      p ∈ referencedFields (multiMatchQuery s hardwareSearchFields (buildHardwareFilter hf))) ∧
    (∀ p ∈ ["street_name.edge", "house_name.keyword"],
      p ∈ referencedFields (addressSearchQuery sa)) ∧
    (sa.HouseQuery ≠ "" → "house_name.edge" ∈ referencedFields (addressSearchQuery sa)) := by
  rw [referencedFields_address, referencedFields_node, referencedFields_hardware]
  refine ⟨?_, ?_, ?_, by decide, by decide, by decide, ?_, ?_, ?_, ?_⟩
  · split <;> decide
  · cases SearchNodeFilter.GetUseIsDelete nf <;> cases SearchNodeFilter.GetUseIsPassive nf <;>
      decide
  · cases SearchHardwareFilter.GetUseIsDelete hf <;> decide
  · intro p hp; exact List.mem_append_left _ hp
  · intro p hp; exact List.mem_append_left _ hp
  · intro p hp
    split
    · revert p; decide
    · revert p; decide
  · intro h
    simp only [h, if_false]
    decide

/-! ## Claim C14: the exact house name outranks every other -/

theorem sumFunctions_address (search : SearchAddress) (hq : search.HouseQuery ≠ "") :
    sumFunctions (addressSearchQuery search) = some [
      JSON.obj [
        ("filter", JSON.obj [("term",
          JSON.obj [("house_name.keyword", JSON.str search.HouseQuery)])]),
        ("weight", JSON.num 100)],
      JSON.obj [
        ("filter", JSON.obj [("bool", JSON.obj [("must", JSON.arr [
          JSON.obj [("prefix",
            JSON.obj [("house_name.keyword", JSON.str search.HouseQuery)])],
          JSON.obj [("regexp",
            JSON.obj [("house_name.keyword",
              JSON.str (search.HouseQuery ++ "[^0-9].*"))])]])])]),
        ("weight", JSON.num 50)],
      JSON.obj [
        ("filter", JSON.obj [("match",
          JSON.obj [("house_name.edge", JSON.str search.HouseQuery)])]),
        ("weight", JSON.num 25)]] := by
  unfold addressSearchQuery
  rw [if_neg hq]
  rfl

theorem matchedWeights_three (m : Matchers) (q name : String) (r : Bool)
    (hr : m.regexp (q ++ "[^0-9].*") name = some r) :
    matchedWeights m name [
      JSON.obj [
        ("filter", JSON.obj [("term", JSON.obj [("house_name.keyword", JSON.str q)])]),
        ("weight", JSON.num 100)],
      JSON.obj [
        ("filter", JSON.obj [("bool", JSON.obj [("must", JSON.arr [
          JSON.obj [("prefix", JSON.obj [("house_name.keyword", JSON.str q)])],
          JSON.obj [("regexp",
            JSON.obj [("house_name.keyword", JSON.str (q ++ "[^0-9].*"))])]])])]),
        ("weight", JSON.num 50)],
      JSON.obj [
        ("filter", JSON.obj [("match", JSON.obj [("house_name.edge", JSON.str q)])]),
        ("weight", JSON.num 25)]] =
      some ((if name = q then [100] else []) ++
        ((if (startsWith q.data name.data && r) = true then [50] else []) ++
          (if m.edge q name = true then [25] else []))) := by
  rcases eq_or_ne name q with rfl | h1
  · cases hs : startsWith name.data name.data <;> cases r <;>
      cases h3 : m.edge name name <;>
      simp [matchedWeights, functionFilterMatches, allClausesMatch, houseClauseMatches, hr,
        hs, h3]
  · cases hs : startsWith q.data name.data <;> cases r <;>
      cases h3 : m.edge q name <;>
      simp [matchedWeights, functionFilterMatches, allClausesMatch, houseClauseMatches, hr,
        hs, h3, h1]

theorem matchedWeights_address (m : Matchers) (search : SearchAddress) (name : String)
    (r : Bool) (hq : search.HouseQuery ≠ "")
    (hr : m.regexp (search.HouseQuery ++ "[^0-9].*") name = some r) :
    (sumFunctions (addressSearchQuery search)).bind (matchedWeights m name) =
      some ((if name = search.HouseQuery then [100] else []) ++
        ((if (startsWith search.HouseQuery.data name.data && r) = true then [50] else []) ++
          (if m.edge search.HouseQuery name = true then [25] else []))) := by
  rw [sumFunctions_address search hq, Option.some_bind]
  exact matchedWeights_three m search.HouseQuery name r hr

theorem summedBoost_eq (m : Matchers) (body : JSON) (name : String) :
    summedBoost m body name =
      ((sumFunctions body).bind (matchedWeights m name)).map List.sum := by
  unfold summedBoost
  cases sumFunctions body <;> rfl

theorem functionFactor_eq (m : Matchers) (body : JSON) (name : String) :
    functionFactor m body name =
      ((sumFunctions body).bind (matchedWeights m name)).map
        fun ws => if ws.isEmpty then 1 else ws.sum := by
  unfold functionFactor
  cases sumFunctions body <;> rfl

/-- C14: in the function-score query built for a non-empty house term `q`
(score mode sum over the three functions of weights 100, 50 and 25), the
summed boost of a document whose house name equals `q` and matches the fuzzy
filter is at least 125 and strictly greater than the summed boost, at most 75,
of every document whose house name differs from `q`; the same holds of the
factor the engine derives from the sum. -/
theorem exact_house_name_outranks (m : Matchers) (search : SearchAddress) (other : String)
    (r1 r2 : Bool) (hq : search.HouseQuery ≠ "")
    (hr1 : m.regexp (search.HouseQuery ++ "[^0-9].*") search.HouseQuery = some r1)
    (hr2 : m.regexp (search.HouseQuery ++ "[^0-9].*") other = some r2)
    (hfuzzy : m.edge search.HouseQuery search.HouseQuery = true)
    (hne : other ≠ search.HouseQuery) :
    ∃ s1 s2 f1 f2 : Int,
      summedBoost m (addressSearchQuery search) search.HouseQuery = some s1 ∧
      summedBoost m (addressSearchQuery search) other = some s2 ∧
      functionFactor m (addressSearchQuery search) search.HouseQuery = some f1 ∧
      functionFactor m (addressSearchQuery search) other = some f2 ∧
      s2 < s1 ∧ 125 ≤ s1 ∧ s2 ≤ 75 ∧ f2 < f1 := by
  simp only [summedBoost_eq, functionFactor_eq,
    matchedWeights_address m search _ r1 hq hr1, matchedWeights_address m search _ r2 hq hr2,
    hfuzzy, hne, if_true, if_false, Option.map_some']
  refine ⟨_, _, _, _, rfl, rfl, rfl, rfl, ?_⟩
  cases (startsWith search.HouseQuery.data search.HouseQuery.data && r1) <;>
    cases (startsWith search.HouseQuery.data other.data && r2) <;>
    cases m.edge search.HouseQuery other <;>
    simp

/-- Witness of C14: for the house term `12`, the house name `12` gets the sum
125 and the house name `12A` the sum 75. -/
theorem exact_house_name_outranks_witness :
    summedBoost (fragmentMatchers edgeOfOneToken) (addressSearchQuery ⟨0, 10, "Bak", "12"⟩)
      "12" = some 125 ∧
    summedBoost (fragmentMatchers edgeOfOneToken) (addressSearchQuery ⟨0, 10, "Bak", "12"⟩)
      "12A" = some 75 ∧
    ∃ s1 s2 f1 f2 : Int,
      summedBoost (fragmentMatchers edgeOfOneToken) (addressSearchQuery ⟨0, 10, "Bak", "12"⟩)
        "12" = some s1 ∧
      summedBoost (fragmentMatchers edgeOfOneToken) (addressSearchQuery ⟨0, 10, "Bak", "12"⟩)
        "12A" = some s2 ∧
      functionFactor (fragmentMatchers edgeOfOneToken)
        (addressSearchQuery ⟨0, 10, "Bak", "12"⟩) "12" = some f1 ∧
      functionFactor (fragmentMatchers edgeOfOneToken)
        (addressSearchQuery ⟨0, 10, "Bak", "12"⟩) "12A" = some f2 ∧
      s2 < s1 ∧ 125 ≤ s1 ∧ s2 ≤ 75 ∧ f2 < f1 :=
  ⟨by decide, by decide,
    exact_house_name_outranks (fragmentMatchers edgeOfOneToken) ⟨0, 10, "Bak", "12"⟩ "12A"
      false true (by decide) (by decide) (by decide) (by decide) (by decide)⟩

/-! ## Claim C15: the filter of the weight-50 function -/

theorem isDigit_range (c : Char) (h : isDigit c = true) : 48 ≤ c.toNat ∧ c.toNat ≤ 57 := by
  simpa [isDigit] using h

theorem digit_not_special (c : Char) (h : isDigit c = true) :
    c ≠ '[' ∧ c ≠ '.' ∧ c ≠ '*' ∧ isRegexpSpecial c = false := by
  have hr := isDigit_range c h
  refine ⟨?_, ?_, ?_, ?_⟩
  · intro e; rw [e] at hr; revert hr; decide
  · intro e; rw [e] at hr; revert hr; decide
  · intro e; rw [e] at hr; revert hr; decide
  · unfold isRegexpSpecial
    generalize c.toNat = n at hr
    obtain ⟨h1, h2⟩ := hr
    interval_cases n <;> decide

theorem regexpTokens_digits (q : List Char) (rest : List Char)
    (hd : ∀ c ∈ q, isDigit c = true) :
    regexpTokens (q ++ rest) =
      (regexpTokens rest).map fun ts => q.map (fun c => Token.atom (Atom.lit c)) ++ ts := by
  induction q with
  | nil => simp
  | cons c q ih =>
    obtain ⟨h1, h2, h3, h4⟩ := digit_not_special c (hd c (List.mem_cons_self _ _))
    have ih2 := ih fun x hx => hd x (List.mem_cons_of_mem _ hx)
    rw [List.cons_append, regexpTokens.eq_def]
    simp only [h1, h2, h3, h4, if_false, ih2, Option.map_map, List.map_cons,
      Bool.false_eq_true]
    rfl

theorem regexpPieces_atom_atom (a b : Atom) (rest : List Token) :
    regexpPieces (Token.atom a :: Token.atom b :: rest) =
      (regexpPieces (Token.atom b :: rest)).map
        fun ps => { atom := a, starred := false } :: ps := by
  simp only [regexpPieces]

theorem regexpPieces_lits (q : List Char) (a : Atom) (rest : List Token) :
    regexpPieces (q.map (fun c => Token.atom (Atom.lit c)) ++ Token.atom a :: rest) =
      (regexpPieces (Token.atom a :: rest)).map
        fun ps => q.map (fun c => ({ atom := Atom.lit c, starred := false } : Piece)) ++ ps := by
  induction q with
  | nil => simp
  | cons c q ih =>
    cases q with
    | nil =>
      simp only [List.map_cons, List.map_nil, List.cons_append, List.nil_append,
        regexpPieces_atom_atom]
    | cons c2 q2 =>
      simp only [List.map_cons, List.cons_append] at ih ⊢
      rw [regexpPieces_atom_atom, ih, Option.map_map]
      rfl

theorem matchStar_any (s : List Char) : matchStar Atom.any (matchPieces []) s = true := by
  induction s with
  | nil => rfl
  | cons c cs ih => simp [matchStar, Atom.accepts, ih]

theorem matchPieces_plain_cons (a : Atom) (ps : List Piece) (x : Char) (xs : List Char) :
    matchPieces ({ atom := a, starred := false } :: ps) (x :: xs) =
      (a.accepts x && matchPieces ps xs) := rfl

theorem matchPieces_plain_nil (a : Atom) (ps : List Piece) :
    matchPieces ({ atom := a, starred := false } :: ps) [] = false := rfl

theorem matchPieces_lits (q : List Char) (ps : List Piece) :
    ∀ h : List Char,
      matchPieces (q.map (fun c => ({ atom := Atom.lit c, starred := false } : Piece)) ++ ps) h
          = true ↔
        ∃ t, h = q ++ t ∧ matchPieces ps t = true := by
  induction q with
  | nil => intro h; simp
  | cons c q ih =>
    intro h
    cases h with
    | nil =>
      rw [List.map_cons, List.cons_append, matchPieces_plain_nil]
      simp
    | cons x xs =>
      rw [List.map_cons, List.cons_append, matchPieces_plain_cons, Bool.and_eq_true, ih xs]
      simp only [Atom.accepts, decide_eq_true_eq, List.cons_append, List.cons.injEq]
      constructor
      · rintro ⟨hx, t, ht, hm⟩
        exact ⟨t, ⟨hx, ht⟩, hm⟩
      · rintro ⟨t, ⟨hx, ht⟩, hm⟩
        exact ⟨hx, t, ht, hm⟩

theorem matchPieces_nondigit_rest (t : List Char) :
    matchPieces [{ atom := Atom.notRange '0' '9', starred := false },
        { atom := Atom.any, starred := true }] t = true ↔
      ∃ c rest, t = c :: rest ∧ isDigit c = false := by
  cases t with
  | nil =>
    rw [matchPieces_plain_nil]
    simp
  | cons x xs =>
    have hstar : matchPieces [{ atom := Atom.any, starred := true }] xs = true :=
      matchStar_any xs
    have h09 : ('0' : Char).toNat = 48 ∧ ('9' : Char).toNat = 57 := by decide
    rw [matchPieces_plain_cons, hstar, Bool.and_true]
    simp only [Atom.accepts, h09.1, h09.2, isDigit, List.cons.injEq]
    constructor
    · intro h
      refine ⟨x, xs, ⟨rfl, rfl⟩, ?_⟩
      simp at h ⊢
      omega
    · rintro ⟨c, rest, ⟨rfl, rfl⟩, hc⟩
      simp at hc ⊢
      omega

theorem startsWith_append (q t : List Char) : startsWith q (q ++ t) = true := by
  induction q with
  | nil => cases t <;> rfl
  | cons c q ih => simp [startsWith, ih]

/-- The verdict of the modelled regular expressions on the pattern the
weight-50 function builds from a house term of digits. -/
theorem regexpMatches_digits (q h : String) (hd : ∀ c ∈ q.data, isDigit c = true) :
    regexpMatches (q ++ "[^0-9].*") h =
      some (matchPieces (q.data.map (fun c => ({ atom := Atom.lit c, starred := false } : Piece))
        ++ [{ atom := Atom.notRange '0' '9', starred := false },
            { atom := Atom.any, starred := true }]) h.data) := by
  have htail : regexpTokens "[^0-9].*".data =
      some [Token.atom (Atom.notRange '0' '9'), Token.atom Atom.any, Token.star] := by decide
  unfold regexpMatches
  rw [String.data_append, regexpTokens_digits q.data _ hd, htail]
  simp only [Option.map_some']
  rw [regexpPieces_lits]
  rfl

theorem weight50Filter_address (search : SearchAddress) (hq : search.HouseQuery ≠ "") :
    weight50Filter (addressSearchQuery search) =
      some (JSON.obj [("bool", JSON.obj [("must", JSON.arr [
        JSON.obj [("prefix",
          JSON.obj [("house_name.keyword", JSON.str search.HouseQuery)])],
        JSON.obj [("regexp",
          JSON.obj [("house_name.keyword",
            JSON.str (search.HouseQuery ++ "[^0-9].*"))])]])])]) := by
  unfold weight50Filter
  rw [sumFunctions_address search hq]
  rfl

theorem weight50_verdict (edge : String → String → Bool) (q h : String)
    (hd : ∀ c ∈ q.data, isDigit c = true) :
    ∃ b : Bool,
      functionFilterMatches (fragmentMatchers edge) h
        (JSON.obj [("bool", JSON.obj [("must", JSON.arr [
          JSON.obj [("prefix", JSON.obj [("house_name.keyword", JSON.str q)])],
          JSON.obj [("regexp",
            JSON.obj [("house_name.keyword", JSON.str (q ++ "[^0-9].*"))])]])])]) = some b ∧
      (b = true ↔ ∃ c rest, h.data = q.data ++ c :: rest ∧ isDigit c = false) := by
  refine ⟨startsWith q.data h.data &&
    matchPieces (q.data.map (fun c => ({ atom := Atom.lit c, starred := false } : Piece))
      ++ [{ atom := Atom.notRange '0' '9', starred := false },
          { atom := Atom.any, starred := true }]) h.data, ?_, ?_⟩
  · simp only [functionFilterMatches, allClausesMatch, houseClauseMatches, fragmentMatchers,
      regexpMatches_digits q h hd, Bool.and_true]
  · rw [Bool.and_eq_true, matchPieces_lits]
    constructor
    · rintro ⟨_, t, ht, hm⟩
      obtain ⟨c, rest, rfl, hc⟩ := (matchPieces_nondigit_rest t).mp hm
      exact ⟨c, rest, ht, hc⟩
    · rintro ⟨c, rest, hh, hc⟩
      refine ⟨by rw [hh]; exact startsWith_append _ _, c :: rest, hh, ?_⟩
      exact (matchPieces_nondigit_rest _).mpr ⟨c, rest, rfl, hc⟩

/-- C15: for every non-empty house term `q` made of digits and every house name
`h`, the filter of the weight-50 function (prefix `q` and regexp `q` followed
by `[^0-9].*`) has a verdict on `h`, and it matches `h` if and only if `h`
begins with `q` and the character right after that prefix exists and is not a
digit; it does not match `q` followed by a further digit. -/
theorem weight50_filter_matches_iff (edge : String → String → Bool) (search : SearchAddress)
    (h : String) (hq : search.HouseQuery ≠ "")
    (hd : ∀ c ∈ search.HouseQuery.data, isDigit c = true) :
    ∃ (f : JSON) (b : Bool),
      weight50Filter (addressSearchQuery search) = some f ∧
      functionFilterMatches (fragmentMatchers edge) h f = some b ∧
      (b = true ↔
        ∃ c rest, h.data = search.HouseQuery.data ++ c :: rest ∧ isDigit c = false) ∧
      (∀ d rest, isDigit d = true → h.data = search.HouseQuery.data ++ d :: rest →
        b = false) := by
  obtain ⟨b, hb, hiff⟩ := weight50_verdict edge search.HouseQuery h hd
  refine ⟨_, b, weight50Filter_address search hq, hb, hiff, ?_⟩
  intro d rest hdig hh
  cases hbv : b with
  | false => rfl
  | true =>
    obtain ⟨c, rest2, hh2, hc⟩ := hiff.mp hbv
    rw [hh] at hh2
    have := List.append_cancel_left hh2
    simp only [List.cons.injEq] at this
    rw [this.1, hc] at hdig
    cases hdig

/-- Witness of C15: for the house term `12` the filter matches `12A` and does
not match `123` nor `12` itself. -/
theorem weight50_filter_matches_iff_witness :
    (weight50Filter (addressSearchQuery ⟨0, 10, "Bak", "12"⟩)).bind
      (functionFilterMatches (fragmentMatchers edgeOfOneToken) "12A") = some true ∧
    (weight50Filter (addressSearchQuery ⟨0, 10, "Bak", "12"⟩)).bind
      (functionFilterMatches (fragmentMatchers edgeOfOneToken) "123") = some false ∧
    (weight50Filter (addressSearchQuery ⟨0, 10, "Bak", "12"⟩)).bind
      (functionFilterMatches (fragmentMatchers edgeOfOneToken) "12") = some false ∧
    ∃ (f : JSON) (b : Bool),
      weight50Filter (addressSearchQuery ⟨0, 10, "Bak", "12"⟩) = some f ∧
      functionFilterMatches (fragmentMatchers edgeOfOneToken) "123" f = some b ∧
      (b = true ↔ ∃ c rest, "123".data = "12".data ++ c :: rest ∧ isDigit c = false) ∧
      (∀ d rest, isDigit d = true → "123".data = "12".data ++ d :: rest → b = false) :=
  ⟨by decide, by decide, by decide,
    weight50_filter_matches_iff edgeOfOneToken ⟨0, 10, "Bak", "12"⟩ "123" (by decide)
      (by decide)⟩

/-! ## Claim C13: provisioning before writes -/

theorem ensureIndex_sent (index : String) (settings : JSON) (w : World) :
    (ensureIndex index settings w).2.sent = w.sent ++ [Request.IndicesExists index] ∨
    (ensureIndex index settings w).2.sent =
      w.sent ++ [Request.IndicesExists index, Request.IndicesCreate index settings] := by
  have h1 := perform_sent w (Request.IndicesExists index)
  unfold ensureIndex
  generalize w.perform (Request.IndicesExists index) = p1 at h1 ⊢
  obtain ⟨r1, w1⟩ := p1
  cases r1 with
  | error e => exact Or.inl h1
  | ok res =>
    dsimp only
    split
    · exact Or.inl h1
    · have h2 := perform_sent w1 (Request.IndicesCreate index settings)
      generalize w1.perform (Request.IndicesCreate index settings) = p2 at h2 ⊢
      obtain ⟨r2, w2⟩ := p2
      dsimp only at h1 h2
      have h3 : w2.sent =
          w.sent ++ [Request.IndicesExists index, Request.IndicesCreate index settings] := by
        rw [h2, h1]; simp
      cases r2 <;> exact Or.inr h3

theorem bulkWrite_sent_shape {α : Type} (index : String) (prepare : α → α) (idOf : α → Int)
    (marshal : α → Except Err String) (items : List α) (w : World) :
    (bulkWrite index prepare idOf marshal items w).2.sent = w.sent ∨
    ∃ buf, (bulkWrite index prepare idOf marshal items w).2.sent =
      w.sent ++ [Request.Bulk index buf] := by
  cases hbuf : bulkBuffer prepare idOf marshal items "" with
  | error e => exact Or.inl (by simp only [bulkWrite, hbuf])
  | ok buf => exact Or.inr ⟨buf, (bulkWrite_sent index prepare idOf marshal items w buf hbuf).1⟩

theorem indexOne_sent_shape {α : Type} (index : String) (prepare : α → α) (idOf : α → Int)
    (marshal : α → Except Err String) (item : α) (w : World) :
    (indexOne index prepare idOf marshal item w).2.sent = w.sent ∨
    ∃ id data, (indexOne index prepare idOf marshal item w).2.sent =
      w.sent ++ [Request.Index index id data] := by
  cases h : marshal (prepare item) with
  | error e => exact Or.inl (by simp only [indexOne, h])
  | ok data => exact Or.inr ⟨_, data, indexOne_sent index prepare idOf marshal item w data h⟩

theorem bulkBufferPtr_some {α : Type} (prepare : α → α) (idOf : α → Int)
    (marshal : α → Except Err String) (items : List α) :
    ∀ buf : String,
      bulkBufferPtr prepare idOf marshal (items.map some) buf =
        Run.done (bulkBuffer prepare idOf marshal items buf) := by
  induction items with
  | nil => intro buf; rfl
  | cons x rest ih =>
    intro buf
    simp only [List.map_cons, bulkBufferPtr, bulkBuffer]
    cases marshal (prepare x) with
    | error e => rfl
    | ok data => exact ih _

/-- On a slice without nil elements the pointer-aware bulk writer is the bulk
writer. -/
theorem bulkWritePtr_some {α : Type} (index : String) (prepare : α → α) (idOf : α → Int)
    (marshal : α → Except Err String) (items : List α) (w : World) :
    bulkWritePtr index prepare idOf marshal (items.map some) w =
      Run.done (bulkWrite index prepare idOf marshal items w) := by
  unfold bulkWritePtr bulkWrite
  rw [bulkBufferPtr_some]
  cases bulkBuffer prepare idOf marshal items "" with
  | error e => rfl
  | ok buf =>
    dsimp only
    generalize w.perform (Request.Bulk index buf) = p
    obtain ⟨r, w1⟩ := p
    cases r with
    | error e => rfl
    | ok res =>
      dsimp only
      cases decodeBulkResponse res.Body with
      | none => rfl
      | some b => cases b <;> rfl

theorem nilFree_eq_map_some {α : Type} (items : List (Option α))
    (h : ∀ x ∈ items, x ≠ none) : ∃ xs : List α, items = xs.map some := by
  induction items with
  | nil => exact ⟨[], rfl⟩
  | cons x rest ih =>
    obtain ⟨xs, hxs⟩ := ih fun y hy => h y (List.mem_cons_of_mem _ hy)
    cases x with
    | none => exact absurd rfl (h none (List.mem_cons_self _ _))
    | some a => exact ⟨a :: xs, by rw [hxs]; rfl⟩

theorem bulkWritePtr_sent_shape {α : Type} (index : String) (prepare : α → α)
    (idOf : α → Int) (marshal : α → Except Err String) (items : List (Option α)) (w : World)
    (r : Option Err × World)
    (h : bulkWritePtr index prepare idOf marshal items w = Run.done r) :
    r.2.sent = w.sent ∨ ∃ buf, r.2.sent = w.sent ++ [Request.Bulk index buf] := by
  unfold bulkWritePtr at h
  cases hb : bulkBufferPtr prepare idOf marshal items "" with
  | panic => rw [hb] at h; cases h
  | done b =>
    rw [hb] at h
    cases b with
    | error e =>
      simp only [Run.done.injEq] at h
      rw [← h]; exact Or.inl rfl
    | ok buf =>
      dsimp only at h
      have hs := perform_sent w (Request.Bulk index buf)
      generalize w.perform (Request.Bulk index buf) = p at h hs
      obtain ⟨pr, w1⟩ := p
      dsimp only at hs
      have hr : r.2 = w1 := by
        cases pr with
        | error e => simp only [Run.done.injEq] at h; rw [← h]
        | ok res =>
          dsimp only at h
          cases hd : decodeBulkResponse res.Body with
          | none => rw [hd] at h; simp only [Run.done.injEq] at h; rw [← h]
          | some b =>
            rw [hd] at h
            cases b <;> simp only [Bool.false_eq_true, if_false, if_true, Run.done.injEq] at h <;>
              rw [← h]
      exact Or.inr ⟨buf, by rw [hr, hs]⟩

theorem provisionsWrites_refl (w : World) : ProvisionsWrites w w :=
  ⟨[], by simp, rfl⟩

theorem provisionsWrites_ensure (index : String) (settings : JSON) (w : World) :
    ProvisionsWrites w (ensureIndex index settings w).2 := by
  rcases ensureIndex_sent index settings w with h | h
  · exact ⟨_, h, rfl⟩
  · exact ⟨_, h, rfl⟩

/-- After a provisioning call for an index, a state that adds at most one write
to that index has every write provisioned. -/
theorem provisionsWrites_after_ensure (index : String) (settings : JSON) (w after : World)
    (h : after.sent = (ensureIndex index settings w).2.sent ∨
      (∃ buf, after.sent = (ensureIndex index settings w).2.sent ++ [Request.Bulk index buf]) ∨
      (∃ id data, after.sent =
        (ensureIndex index settings w).2.sent ++ [Request.Index index id data])) :
    ProvisionsWrites w after := by
  rcases ensureIndex_sent index settings w with he | he <;>
    rcases h with h | ⟨buf, h⟩ | ⟨id, data, h⟩ <;>
    rw [he] at h
  · exact ⟨_, h, rfl⟩
  · exact ⟨_, by rw [h, List.append_assoc], by simp [writesProvisioned]⟩
  · exact ⟨_, by rw [h, List.append_assoc], by simp [writesProvisioned]⟩
  · exact ⟨_, h, rfl⟩
  · exact ⟨_, by rw [h, List.append_assoc], by simp [writesProvisioned]⟩
  · exact ⟨_, by rw [h, List.append_assoc], by simp [writesProvisioned]⟩

theorem facade_bulk_provisions {α : Type} (index : String) (settings : JSON)
    (prepare : α → α) (idOf : α → Int) (marshal : α → Except Err String) (items : List α)
    (w : World) (m1 m2 : String) :
    ProvisionsWrites w
      (match ensureIndex index settings w with
       | (some _, w1) => (some m1, w1)
       | (none, w1) =>
         match bulkWrite index prepare idOf marshal items w1 with
         | (some _, w2) => (some m2, w2)
         | (none, w2) => ((none : Option String), w2)).2 := by
  have hshape := bulkWrite_sent_shape index prepare idOf marshal items
    (ensureIndex index settings w).2
  apply provisionsWrites_after_ensure index settings
  generalize ensureIndex index settings w = p at hshape ⊢
  obtain ⟨e, w1⟩ := p
  cases e with
  | some e => exact Or.inl rfl
  | none =>
    dsimp only at hshape ⊢
    generalize bulkWrite index prepare idOf marshal items w1 = p2 at hshape ⊢
    obtain ⟨e2, w2⟩ := p2
    cases e2 <;> rcases hshape with h | ⟨buf, h⟩ <;>
      first
        | exact Or.inl h
        | exact Or.inr (Or.inl ⟨buf, h⟩)

/-- The write paths that do provision: the three bulk operations of the facade
and every path of the three consumers send an existence check of the kind's
index before the write. -/
theorem bulk_and_consumer_paths_provision (w : World)
    (marshalA : Address → Except Err String) (marshalN : Node → Except Err String)
    (marshalH : Hardware → Except Err String) :
    (∀ req, ProvisionsWrites w (SearchServiceServer.IndexAddresses marshalA req w).2) ∧
    (∀ req, ProvisionsWrites w (SearchServiceServer.IndexNodes marshalN req w).2) ∧
    (∀ req, ProvisionsWrites w (SearchServiceServer.IndexHardware marshalH req w).2) ∧
    (∀ msg w1, AddressConsumer.handle marshalA msg w = Run.done w1 → ProvisionsWrites w w1) ∧
    (∀ msg w1, NodeConsumer.handle marshalN msg w = Run.done w1 → ProvisionsWrites w w1) ∧
    (∀ msg w1, HardwareConsumer.handle marshalH msg w = Run.done w1 →
      ProvisionsWrites w w1) := by
  refine ⟨?_, ?_, ?_, ?_, ?_, ?_⟩
  · intro req
    exact facade_bulk_provisions "addresses" addressSettings id _ marshalA req w _ _
  · intro req
    exact facade_bulk_provisions "nodes" nodeSettings normalizeNode _ marshalN req w _ _
  · intro req
    exact facade_bulk_provisions "hardware" hardwareSettings normalizeHardware _ marshalH req
      w _ _
  · intro msg w1 h
    unfold AddressConsumer.handle at h
    split at h
    · dsimp only at h
      cases hb : bulkWritePtr "addresses" id (fun a => a.HouseId) marshalA msg.Addresses
          (EnsureIndexAddress w).2 with
      | panic => rw [hb] at h; cases h
      | done r =>
        rw [hb] at h
        simp only [Run.done.injEq] at h
        subst h
        apply provisionsWrites_after_ensure "addresses" addressSettings
        rcases bulkWritePtr_sent_shape _ _ _ _ _ _ r hb with hs | ⟨buf, hs⟩
        · exact Or.inl hs
        · exact Or.inr (Or.inl ⟨buf, hs⟩)
    · simp only [Run.done.injEq] at h
      subst h
      exact provisionsWrites_refl w
  · intro msg w1 h
    unfold NodeConsumer.handle at h
    split at h
    · split at h
      · simp only [Run.done.injEq] at h
        subst h
        apply provisionsWrites_after_ensure "nodes" nodeSettings
        rcases indexOne_sent_shape "nodes" normalizeNode (fun n => n.Id) marshalN _
            (EnsureIndexNode w).2 with hs | ⟨id, data, hs⟩
        · exact Or.inl hs
        · exact Or.inr (Or.inr ⟨id, data, hs⟩)
      · simp only [Run.done.injEq] at h
        subst h
        exact provisionsWrites_refl w
    · split at h
      · split at h
        · dsimp only at h
          cases hb : bulkWritePtr "nodes" normalizeNode (fun n => n.Id) marshalN msg.Nodes
              (EnsureIndexNode w).2 with
          | panic => rw [hb] at h; cases h
          | done r =>
            rw [hb] at h
            simp only [Run.done.injEq] at h
            subst h
            apply provisionsWrites_after_ensure "nodes" nodeSettings
            rcases bulkWritePtr_sent_shape _ _ _ _ _ _ r hb with hs | ⟨buf, hs⟩
            · exact Or.inl hs
            · exact Or.inr (Or.inl ⟨buf, hs⟩)
        · simp only [Run.done.injEq] at h
          subst h
          exact provisionsWrites_refl w
      · simp only [Run.done.injEq] at h
        subst h
        exact provisionsWrites_refl w
  · intro msg w1 h
    unfold HardwareConsumer.handle at h
    split at h
    · split at h
      · simp only [Run.done.injEq] at h
        subst h
        apply provisionsWrites_after_ensure "hardware" hardwareSettings
        rcases indexOne_sent_shape "hardware" normalizeHardware (fun x => x.Id) marshalH _
            (EnsureIndexHardware w).2 with hs | ⟨id, data, hs⟩
        · exact Or.inl hs
        · exact Or.inr (Or.inr ⟨id, data, hs⟩)
      · simp only [Run.done.injEq] at h
        subst h
        exact provisionsWrites_refl w
    · split at h
      · split at h
        · dsimp only at h
          cases hb : bulkWritePtr "hardware" normalizeHardware (fun x => x.Id) marshalH
              msg.Hardware (EnsureIndexHardware w).2 with
          | panic => rw [hb] at h; cases h
          | done r =>
            rw [hb] at h
            simp only [Run.done.injEq] at h
            subst h
            apply provisionsWrites_after_ensure "hardware" hardwareSettings
            rcases bulkWritePtr_sent_shape _ _ _ _ _ _ r hb with hs | ⟨buf, hs⟩
            · exact Or.inl hs
            · exact Or.inr (Or.inl ⟨buf, hs⟩)
        · simp only [Run.done.injEq] at h
          subst h
          exact provisionsWrites_refl w
      · simp only [Run.done.injEq] at h
        subst h
        exact provisionsWrites_refl w

/-- C13: the code breaks the claim on the single-document operations of the
facade.  On an engine without any index, `SearchServiceServer.IndexNode`,
`IndexAddress` and `IndexHardwareSingle` succeed and the only request each
sends is the write: no provisioning call for the kind comes before it. -/
theorem single_document_facade_skips_provisioning :
    (SearchServiceServer.IndexNode marshalNode sampleNode emptyWorld).1 = none ∧
    (SearchServiceServer.IndexNode marshalNode sampleNode emptyWorld).2.sent =
      [Request.Index "nodes" "5" (render (nodeDocument (normalizeNode sampleNode)))] ∧
    writesProvisioned []
      (SearchServiceServer.IndexNode marshalNode sampleNode emptyWorld).2.sent = false ∧
    (SearchServiceServer.IndexAddress marshalAddress (sampleAddress 7) emptyWorld).2.sent =
      [Request.Index "addresses" "7" (render (addressDocument (sampleAddress 7)))] ∧
    writesProvisioned []
      (SearchServiceServer.IndexAddress marshalAddress (sampleAddress 7) emptyWorld).2.sent =
        false ∧
    (SearchServiceServer.IndexHardwareSingle marshalHardware sampleHardware emptyWorld).2.sent =
      [Request.Index "hardware" "9"
        (render (hardwareDocument (normalizeHardware sampleHardware)))] ∧
    writesProvisioned []
      (SearchServiceServer.IndexHardwareSingle marshalHardware sampleHardware
        emptyWorld).2.sent = false :=
  ⟨rfl, rfl, rfl, rfl, rfl, rfl, rfl⟩

/-! ## Claim C18: the consumer loops -/

theorem nodeConsumer_handle_done (marshal : Node → Except Err String)
    (msg : IndexNodeMessage) (w : World) (h : ∀ x ∈ msg.Nodes, x ≠ none) :
    ∃ w1, NodeConsumer.handle marshal msg w = Run.done w1 := by
  obtain ⟨xs, hxs⟩ := nilFree_eq_map_some msg.Nodes h
  unfold NodeConsumer.handle
  split
  · split <;> exact ⟨_, rfl⟩
  · split
    · split
      · rw [hxs]; dsimp only; rw [bulkWritePtr_some]; exact ⟨_, rfl⟩
      · exact ⟨_, rfl⟩
    · exact ⟨_, rfl⟩

theorem hardwareConsumer_handle_done (marshal : Hardware → Except Err String)
    (msg : IndexHardwareMessage) (w : World) (h : ∀ x ∈ msg.Hardware, x ≠ none) :
    ∃ w1, HardwareConsumer.handle marshal msg w = Run.done w1 := by
  obtain ⟨xs, hxs⟩ := nilFree_eq_map_some msg.Hardware h
  unfold HardwareConsumer.handle
  split
  · split <;> exact ⟨_, rfl⟩
  · split
    · split
      · rw [hxs]; dsimp only; rw [bulkWritePtr_some]; exact ⟨_, rfl⟩
      · exact ⟨_, rfl⟩
    · exact ⟨_, rfl⟩

theorem addressConsumer_handle_done (marshal : Address → Except Err String)
    (msg : IndexAddressMessage) (w : World) (h : ∀ x ∈ msg.Addresses, x ≠ none) :
    ∃ w1, AddressConsumer.handle marshal msg w = Run.done w1 := by
  obtain ⟨xs, hxs⟩ := nilFree_eq_map_some msg.Addresses h
  unfold AddressConsumer.handle
  split
  · rw [hxs]; dsimp only; rw [bulkWritePtr_some]; exact ⟨_, rfl⟩
  · exact ⟨_, rfl⟩

/-- What holds of the loops when no batch holds a nil element: each consumer
goes through every message and then returns exactly the read error; a
payload that does not decode is skipped without any request. -/
theorem consumers_return_read_error (e : String) (w : World)
    (marshalA : Address → Except Err String) (marshalN : Node → Except Err String)
    (marshalH : Hardware → Except Err String) :
    (∀ msgs, AddressMessagesNilFree msgs →
      ∃ w1, AddressConsumer.Start marshalA msgs e w = Run.done (e, w1)) ∧
    (∀ msgs, NodeMessagesNilFree msgs →
      ∃ w1, NodeConsumer.Start marshalN msgs e w = Run.done (e, w1)) ∧
    (∀ msgs, HardwareMessagesNilFree msgs →
      ∃ w1, HardwareConsumer.Start marshalH msgs e w = Run.done (e, w1)) ∧
    (∀ rest, AddressConsumer.Start marshalA (none :: rest) e w =
      AddressConsumer.Start marshalA rest e w) ∧
    (∀ rest, NodeConsumer.Start marshalN (none :: rest) e w =
      NodeConsumer.Start marshalN rest e w) ∧
    (∀ rest, HardwareConsumer.Start marshalH (none :: rest) e w =
      HardwareConsumer.Start marshalH rest e w) := by
  refine ⟨?_, ?_, ?_, fun _ => rfl, fun _ => rfl, fun _ => rfl⟩
  · intro msgs
    induction msgs generalizing w with
    | nil => intro _; exact ⟨w, rfl⟩
    | cons m rest ih =>
      intro hfree
      have hrest : AddressMessagesNilFree rest :=
        fun msg hm => hfree msg (List.mem_cons_of_mem _ hm)
      cases m with
      | none => exact ih w hrest
      | some msg =>
        obtain ⟨w1, hw1⟩ := addressConsumer_handle_done marshalA msg w
          (hfree msg (List.mem_cons_self _ _))
        obtain ⟨w2, hw2⟩ := ih w1 hrest
        exact ⟨w2, by simp only [AddressConsumer.Start, hw1, hw2]⟩
  · intro msgs
    induction msgs generalizing w with
    | nil => intro _; exact ⟨w, rfl⟩
    | cons m rest ih =>
      intro hfree
      have hrest : NodeMessagesNilFree rest :=
        fun msg hm => hfree msg (List.mem_cons_of_mem _ hm)
      cases m with
      | none => exact ih w hrest
      | some msg =>
        obtain ⟨w1, hw1⟩ := nodeConsumer_handle_done marshalN msg w
          (hfree msg (List.mem_cons_self _ _))
        obtain ⟨w2, hw2⟩ := ih w1 hrest
        exact ⟨w2, by simp only [NodeConsumer.Start, hw1, hw2]⟩
  · intro msgs
    induction msgs generalizing w with
    | nil => intro _; exact ⟨w, rfl⟩
    | cons m rest ih =>
      intro hfree
      have hrest : HardwareMessagesNilFree rest :=
        fun msg hm => hfree msg (List.mem_cons_of_mem _ hm)
      cases m with
      | none => exact ih w hrest
      | some msg =>
        obtain ⟨w1, hw1⟩ := hardwareConsumer_handle_done marshalH msg w
          (hfree msg (List.mem_cons_self _ _))
        obtain ⟨w2, hw2⟩ := ih w1 hrest
        exact ⟨w2, by simp only [HardwareConsumer.Start, hw1, hw2]⟩

/-- C18: the code breaks the claim on a batch message whose array holds a
`null`.  The payload decodes, the batch is not empty, the provisioning call is
made, and the bulk writer dereferences the nil element: `Start` ends in a
run-time panic, does not process the message that follows and does not return
the read error. -/
theorem null_batch_element_stops_consumer :
    NodeConsumer.Start marshalNode [some nullBatchNodeMessage, some singleNodeMessage] "EOF"
      emptyWorld = Run.panic ∧
    HardwareConsumer.Start marshalHardware
      [some nullBatchHardwareMessage,
       some { Type_ := "single", HardwareSingle := some sampleHardware, Hardware := [] }]
      "EOF" emptyWorld = Run.panic ∧
    AddressConsumer.Start marshalAddress
      [some nullBatchAddressMessage,
       some { Type_ := "batch", Address := none, Addresses := [some (sampleAddress 7)] }]
      "EOF" emptyWorld = Run.panic :=
  ⟨rfl, rfl, rfl⟩

end SearchService
